import Mathlib

/-!
Verification of the resume-tailor pipeline (src/app.py) against its
natural-language specification.  Strings are modelled as `List Char`;
Python dictionaries with a fixed key set are modelled as structures of
`Option`-typed fields; fallible operations return `Except Unit`.
All definitions are translated from the Python source.
-/

namespace ResumeTailor

/-- Coerce a Lean string literal into the list-of-characters string model. -/
def str (s : String) : List Char := s.data

/-- Boolean test that `p` is a prefix of `s` (character-wise equality). -/
def startsWith : List Char → List Char → Bool
  | [], _ => true
  | _ :: _, [] => false
  | p :: ps, c :: cs => p = c && startsWith ps cs

/-! ## LaTeX text sanitizer (src/app.py lines 53-75)

`escape_latex_characters` first strips command tokens with
`re.sub(r'\\(?!(textbf|textit|underline|&|\$|%|#|_|\{|\}|textasciicircum|textasciitilde|hfill))[a-zA-Z]+', '', text)`
and then applies the nine single-character replacements of the
`latex_chars` dict, in insertion order. -/

/-- Alternatives of the negative lookahead in the command-stripping regex
(source line 58), in source order. -/
def lookaheadAlts : List (List Char) :=
  [str "textbf", str "textit", str "underline", str "&", str "$", str "%", str "#",
   str "_", str "\x7b", str "\x7d", str "textasciicircum", str "textasciitilde", str "hfill"]

/-- Negative-lookahead test: the regex refuses to match a backslash whose
following text begins with one of `lookaheadAlts`. -/
def allowedLookahead (rest : List Char) : Bool :=
  lookaheadAlts.any (fun a => startsWith a rest)

/-- Fuelled scanner for the command-stripping `re.sub` of source line 58.
Scanning left to right: at a backslash, when the negative lookahead fails
to block it and at least one ASCII letter `[a-zA-Z]` follows, the backslash
and the maximal letter run are removed and scanning resumes after the run
(a regex match consumes the matched text); otherwise the character is kept
and scanning advances one position.  The fuel only serves structural
recursion; `stripCommands` supplies enough fuel for the whole input. -/
def stripCommandsFuel : Nat → List Char → List Char
  | 0, l => l
  | _ + 1, [] => []
  | fuel + 1, c :: rest =>
    if c = '\\' then
      if allowedLookahead rest then c :: stripCommandsFuel fuel rest
      else if (rest.takeWhile Char.isAlpha).isEmpty then c :: stripCommandsFuel fuel rest
      else stripCommandsFuel fuel (rest.dropWhile Char.isAlpha)
    else c :: stripCommandsFuel fuel rest

/-- Embedding of the command-stripping `re.sub` call (source line 58). -/
def stripCommands (l : List Char) : List Char := stripCommandsFuel l.length l

/-- Embedding of the `latex_chars` replacement dict (source lines 60-70),
as an ordered association list: Python dicts preserve insertion order and
the replacements are applied by iterating over the dict in that order. -/
def latexCharReplacements : List (Char × List Char) :=
  [('&', str "\\&"), ('%', str "\\%"), ('$', str "\\$"), ('#', str "\\#"), ('_', str "\\_"),
   ('\x7b', str "\\\x7b"), ('\x7d', str "\\\x7d"),
   ('^', str "\\textasciicircum\x7b\x7d"), ('~', str "\\textasciitilde\x7b\x7d")]

/-- Embedding of `text.replace(char, escaped)` for a one-character pattern:
every occurrence of `c` is replaced by `r`. -/
def replaceChar (c : Char) (r : List Char) : List Char → List Char
  | [] => []
  | x :: xs => (if x = c then r else [x]) ++ replaceChar c r xs

/-- Application of all nine replacements of `latexCharReplacements`, in
order (source lines 72-73). -/
def applyReplacements (l : List Char) : List Char :=
  latexCharReplacements.foldl (fun acc p => replaceChar p.1 p.2 acc) l

/-- Embedding of `escape_latex_characters` (source lines 53-75): empty
input is returned unchanged (Python falsiness check `if not text`);
otherwise commands are stripped and the character replacements applied. -/
def escape_latex_characters (text : List Char) : List Char :=
  if text.isEmpty then text
  else applyReplacements (stripCommands text)

/-- Keys of the `latex_chars` dict: the LaTeX special characters the spec
quantifies over (it lists the glyphs of source lines 61-69). -/
def latexSpecials : List Char :=
  ['&', '%', '$', '#', '_', '\x7b', '\x7d', '^', '~']

/-- Escape form produced for one special character: the value stored under
`c` in the `latex_chars` dict (characters outside the dict map to
themselves). -/
def escMap (c : Char) : List Char :=
  match latexCharReplacements.find? (fun p => p.1 = c) with
  | some p => p.2
  | none => [c]

/-- Concatenation of the images of a character-wise function, used to state
that escaping a specials-only string is the concatenation of escape forms. -/
def concatMapStr (f : Char → List Char) : List Char → List Char
  | [] => []
  | c :: cs => f c ++ concatMapStr f cs

/-- Escape forms, in the dict order. -/
def escapeForms : List (List Char) := latexCharReplacements.map (fun p => p.2)

/-- Checker for the claim "no unescaped special character remains": the
output must be a concatenation of escape forms and of characters outside
`latexSpecials`.  The scan consumes a whole escape form whenever one
starts at the current position, and otherwise rejects exactly the bare
special characters. -/
def okEscaped : List Char → Bool
  | [] => true
  | c :: rest =>
    match escapeForms.find? (fun f => startsWith f (c :: rest)) with
    | some f => okEscaped (rest.drop (f.length - 1))
    | none => if latexSpecials.contains c then false else okEscaped rest
termination_by l => l.length
decreasing_by
  · simp only [List.length_cons]
    exact Nat.lt_succ_of_le (by rw [List.length_drop]; omega)
  · simp

/-! ## Structured resume model (src/app.py lines 88-103)

The parser and both optimizers store each subsection entry as a JSON
object with the string keys `heading`, `organization`, `location`, `date`
and the list key `bullets`; any key may be absent.  The serializers read
entries only through `item.get(key, default)`, which is modelled by
`Option.getD`. -/

/-- One subsection entry (a Python dict with an optional field per key). -/
structure SubItem where
  heading : Option (List Char)
  organization : Option (List Char)
  location : Option (List Char)
  date : Option (List Char)
  bullets : Option (List (List Char))
deriving DecidableEq

/-- Embedding of the `ResumeSection` dataclass (source lines 88-93). -/
structure ResumeSection where
  title : List Char
  lines : List (List Char)
  subsections : List SubItem
deriving DecidableEq

/-- Embedding of the `StructuredResume` dataclass (source lines 95-103):
a fixed set of optional sections. -/
structure StructuredResume where
  contact : Option ResumeSection := none
  summary : Option ResumeSection := none
  experience : Option ResumeSection := none
  skills : Option ResumeSection := none
  education : Option ResumeSection := none
  projects : Option ResumeSection := none
  certifications : Option ResumeSection := none
deriving DecidableEq

/-- Python whitespace characters stripped by `str.strip()`. -/
def isPyWs (c : Char) : Bool :=
  c = ' ' || c = '\t' || c = '\n' || c = '\r' || c = '\x0b' || c = '\x0c'

/-- Embedding of `str.strip()` (both ends). -/
def pyStrip (l : List Char) : List Char :=
  ((l.dropWhile isPyWs).reverse.dropWhile isPyWs).reverse

/-- Truthiness of `b.strip()`: nonempty after stripping whitespace. -/
def bNonBlank (b : List Char) : Bool := !(pyStrip b).isEmpty

/-- Reading of `item.get("heading", "")`. -/
def getHeading (it : SubItem) : List Char := it.heading.getD []

/-- Reading of `item.get("organization", "")`. -/
def getOrganization (it : SubItem) : List Char := it.organization.getD []

/-- Reading of `item.get("location", "")`. -/
def getLocation (it : SubItem) : List Char := it.location.getD []

/-- Reading of `item.get("date", "")`. -/
def getDate (it : SubItem) : List Char := it.date.getD []

/-- Reading of `item.get("bullets", [])`. -/
def getBullets (it : SubItem) : List (List Char) := it.bullets.getD []

/-- Embedding of `[b for b in item.get("bullets", []) if b.strip()]`. -/
def nonEmptyBullets (it : SubItem) : List (List Char) := (getBullets it).filter bNonBlank

/-! ## Fallback-mode LaTeX serializer (src/app.py lines 783-986)

The module defines `structure_to_latex` twice (lines 217-425 and 783-986);
the later definition shadows the earlier one at import time, so the later
one is the embedded authority.  Output is modelled as the list of lines
that the source accumulates in `latex_lines` before `"\n".join`. -/

/-- Fixed preamble of the fallback template (source lines 795-862). -/
def latexPreamble : List (List Char) :=
  [str "\\documentclass[letterpaper,11pt]\x7barticle\x7d",
   str "\\usepackage\x7blatexsym\x7d",
   str "\\usepackage[empty]\x7bfullpage\x7d",
   str "\\usepackage\x7btitlesec\x7d",
   str "\\usepackage\x7bmarvosym\x7d",
   str "\\usepackage[usenames,dvipsnames]\x7bcolor\x7d",
   str "\\usepackage\x7bverbatim\x7d",
   str "\\usepackage\x7benumitem\x7d",
   str "\\usepackage[hidelinks]\x7bhyperref\x7d",
   str "\\usepackage\x7bfancyhdr\x7d",
   str "\\usepackage[english]\x7bbabel\x7d",
   str "\\usepackage\x7btabularx\x7d",
   str "\\input\x7bglyphtounicode\x7d",
   [],
   str "\\pagestyle\x7bfancy\x7d",
   str "\\fancyhf\x7b\x7d",
   str "\\fancyfoot\x7b\x7d",
   str "\\renewcommand\x7b\\headrulewidth\x7d\x7b0pt\x7d",
   str "\\renewcommand\x7b\\footrulewidth\x7d\x7b0pt\x7d",
   [],
   str "\\addtolength\x7b\\oddsidemargin\x7d\x7b-0.5in\x7d",
   str "\\addtolength\x7b\\evensidemargin\x7d\x7b-0.5in\x7d",
   str "\\addtolength\x7b\\textwidth\x7d\x7b1in\x7d",
   str "\\addtolength\x7b\\topmargin\x7d\x7b-0.5in\x7d",
   str "\\addtolength\x7b\\textheight\x7d\x7b1.0in\x7d",
   [],
   str "\\urlstyle\x7bsame\x7d",
   [],
   str "\\raggedbottom",
   str "\\raggedright",
   str "\\setlength\x7b\\tabcolsep\x7d\x7b0in\x7d",
   [],
   str "\\titleformat\x7b\\section\x7d\x7b",
   str "  \\vspace\x7b-3pt\x7d\\scshape\\raggedright\\large",
   str "\x7d\x7b\x7d\x7b0em\x7d\x7b\x7d[\\color\x7bblack\x7d\\titlerule \\vspace\x7b-4pt\x7d]",
   [],
   str "\\pdfgentounicode=1",
   [],
   str "\\newcommand\x7b\\resumeItem\x7d[1]\x7b",
   str "  \\item\\small\x7b",
   str "    \x7b#1 \\vspace\x7b-1pt\x7d\x7d",
   str "  \x7d",
   str "\x7d",
   [],
   str "\\newcommand\x7b\\resumeSubheading\x7d[4]\x7b",
   str "  \\vspace\x7b-1pt\x7d\\item",
   str "    \\begin\x7btabular*\x7d\x7b0.97\\textwidth\x7d[t]\x7bl@\x7b\\extracolsep\x7b\\fill\x7d\x7dr\x7d",
   str "      \\textbf\x7b#1\x7d & #2 \\\\",
   str "      \\textit\x7b\\small#3\x7d & \\textit\x7b\\small #4\x7d \\\\",
   str "    \\end\x7btabular*\x7d\\vspace\x7b-6pt\x7d",
   str "\x7d",
   [],
   str "\\newcommand\x7b\\resumeProjectHeading\x7d[2]\x7b",
   str "    \\item",
   str "    \\begin\x7btabular*\x7d\x7b0.97\\textwidth\x7d\x7bl@\x7b\\extracolsep\x7b\\fill\x7d\x7dr\x7d",
   str "      \\small#1 & #2 \\\\",
   str "    \\end\x7btabular*\x7d\\vspace\x7b-6pt\x7d",
   str "\x7d",
   [],
   str "\\newcommand\x7b\\resumeSubHeadingListStart\x7d\x7b\\begin\x7bitemize\x7d[leftmargin=0.15in, label=\x7b\x7d]\x7d",
   str "\\newcommand\x7b\\resumeSubHeadingListEnd\x7d\x7b\\end\x7bitemize\x7d\x7d",
   str "\\newcommand\x7b\\resumeItemListStart\x7d\x7b\\begin\x7bitemize\x7d\x7d",
   str "\\newcommand\x7b\\resumeItemListEnd\x7d\x7b\\end\x7bitemize\x7d\\vspace\x7b-3pt\x7d\x7d",
   [],
   str "\\begin\x7bdocument\x7d",
   []]

/-- Contact lines with Python `enumerate` semantics (source lines 867-872):
the first line is rendered large, the others small. -/
def contactLinesAux : Nat → List (List Char) → List (List Char)
  | _, [] => []
  | i, l :: ls =>
    (if i = 0 then
      str "    \\textbf\x7b\\Huge \\scshape " ++ escape_latex_characters l
        ++ str "\x7d \\\\ \\vspace\x7b1pt\x7d"
    else str "    \\small " ++ escape_latex_characters l) :: contactLinesAux (i + 1) ls

/-- Contact section block (source lines 865-874); skipped when the field is
`None` or the line list is empty (Python truthiness of both operands). -/
def contactBlock : Option ResumeSection → List (List Char)
  | none => []
  | some c =>
    if c.lines.isEmpty then []
    else (str "\\begin\x7bcenter\x7d" :: contactLinesAux 0 c.lines)
      ++ [str "\\end\x7bcenter\x7d", []]

/-- Summary section block (source lines 877-881). -/
def summaryBlock : Option ResumeSection → List (List Char)
  | none => []
  | some s =>
    if s.lines.isEmpty then []
    else str "\\section\x7bProfessional Summary\x7d"
      :: s.lines.map (fun l => str "\\small\x7b" ++ escape_latex_characters l ++ str "\x7d")
      ++ [[]]

/-- Bullet lines of one subsection entry (source lines 899-904 and the
identical later copies): emitted only when some bullet is non-blank. -/
def bulletLines (it : SubItem) : List (List Char) :=
  let bs := nonEmptyBullets it
  if bs.isEmpty then []
  else str "    \\\\resumeItemListStart"
    :: bs.map (fun b => str "      \\\\resumeItem\x7b" ++ escape_latex_characters b ++ str "\x7d")
    ++ [str "    \\\\resumeItemListEnd"]

/-- Lines of one Education or Experience entry (source lines 896 and 919;
the two f-strings are identical): `\\resumeSubheading{H}{D}{O}{L}`. -/
def subheadingItemLines (it : SubItem) : List (List Char) :=
  (str "    \\\\resumeSubheading\x7b" ++ escape_latex_characters (getHeading it)
      ++ str "\x7d\x7b" ++ escape_latex_characters (getDate it)
      ++ str "\x7d\x7b" ++ escape_latex_characters (getOrganization it)
      ++ str "\x7d\x7b" ++ escape_latex_characters (getLocation it) ++ str "\x7d")
    :: bulletLines it

/-- Lines of one Projects or Certifications entry (source lines 939 and
959): `\\resumeProjectHeading{\\textbf{H}}{D}`. -/
def projectItemLines (it : SubItem) : List (List Char) :=
  (str "    \\\\resumeProjectHeading\x7b\\\\textbf\x7b" ++ escape_latex_characters (getHeading it)
      ++ str "\x7d\x7d\x7b" ++ escape_latex_characters (getDate it) ++ str "\x7d")
    :: bulletLines it

/-- Block of a section rendered through subsections (source lines 886-968):
header, list-start, the items, list-end, blank line; skipped when the field
is `None` or its subsection list is empty. -/
def subsectionBlock (header : List Char) (itemRender : SubItem → List (List Char)) :
    Option ResumeSection → List (List Char)
  | none => []
  | some s =>
    if s.subsections.isEmpty then []
    else header :: str "  \\\\resumeSubHeadingListStart"
      :: (s.subsections.map itemRender).flatten
      ++ [str "  \\\\resumeSubHeadingListEnd", []]

/-- Skills content lines (source lines 975-980): every line but the last
gets a trailing `\\`. -/
def skillsContentLines : List (List Char) → List (List Char)
  | [] => []
  | [l] => [str "      " ++ escape_latex_characters l]
  | l :: ls =>
    (str "      " ++ escape_latex_characters l ++ str " \\\\") :: skillsContentLines ls

/-- Skills section block (source lines 971-983). -/
def skillsBlock : Option ResumeSection → List (List Char)
  | none => []
  | some s =>
    if s.lines.isEmpty then []
    else [str "\\section\x7bSkills\x7d",
      str "  \\begin\x7bitemize\x7d[leftmargin=0.15in, label=\x7b\x7d]",
      str "    \\small\x7b\\item\x7b"]
      ++ skillsContentLines s.lines
      ++ [str "    \x7d\x7d", str "  \\end\x7bitemize\x7d", []]

/-- All lines of the fallback-mode document (source lines 795-986), in the
order the source appends them. -/
def fallbackLatexLines (r : StructuredResume) : List (List Char) :=
  latexPreamble
    ++ contactBlock r.contact
    ++ summaryBlock r.summary
    ++ subsectionBlock (str "\\section\x7bEducation\x7d") subheadingItemLines r.education
    ++ subsectionBlock (str "\\section\x7bExperience\x7d") subheadingItemLines r.experience
    ++ subsectionBlock (str "\\section\x7bProjects\x7d") projectItemLines r.projects
    ++ subsectionBlock (str "\\section\x7bCertifications \\& Achievements\x7d") projectItemLines
      r.certifications
    ++ skillsBlock r.skills
    ++ [str "\\end\x7bdocument\x7d"]

/-- Embedding of `"\n".join(latex_lines)` (source line 986). -/
def joinLines (ls : List (List Char)) : List Char := List.intercalate (str "\n") ls

/-! ## DOCX serializer (src/app.py lines 1050-1139)

The module defines `structure_to_docx` twice (lines 428-517 and
1050-1139) with identical bodies; the later definition is the embedded
one.  The produced Word document is modelled by its sequence of content
elements; purely visual settings carrying no content (page margins, the
right-aligned tab stop) are not part of the model.  The
`DOCX_AVAILABLE` guard concerns the import environment, not the
serialization itself. -/

/-- One text run: `p.add_run(text)` with its bold/italic flag. -/
inductive DocxRun where
  | plain (text : List Char)
  | bold (text : List Char)
  | italic (text : List Char)
deriving DecidableEq

/-- One document element: a paragraph of runs (possibly centered, possibly
styled) or a level-`n` heading. -/
inductive DocxElem where
  | paragraph (runs : List DocxRun) (centered : Bool) (style : Option (List Char))
  | heading (text : List Char) (level : Nat)
deriving DecidableEq

/-- Contact block of the DOCX output (source lines 1066-1070): centered
plain paragraphs followed by an empty paragraph. -/
def contactDocx : Option ResumeSection → List DocxElem
  | none => []
  | some c =>
    if c.lines.isEmpty then []
    else c.lines.map (fun l => DocxElem.paragraph [DocxRun.plain l] true none)
      ++ [DocxElem.paragraph [] false none]

/-- Summary block of the DOCX output (source lines 1073-1077). -/
def summaryDocx : Option ResumeSection → List DocxElem
  | none => []
  | some s =>
    if s.lines.isEmpty then []
    else DocxElem.heading (str "Professional Summary") 1
      :: s.lines.map (fun l => DocxElem.paragraph [DocxRun.plain l] false none)
      ++ [DocxElem.paragraph [] false none]

/-- Embedding of the `org_info` assembly (source lines 1100-1102):
`organization`, extended with the location when present, joined with
a pipe only when the organization itself is nonempty. -/
def orgInfo (organization location : List Char) : List Char :=
  organization
    ++ (if location.isEmpty then []
        else if organization.isEmpty then location
        else str " | " ++ location)

/-- Elements of one subsection entry of the DOCX output (source lines
1083-1118): heading run, tab run, date run; for Experience/Education also
an organization/location line; then the non-blank bullets. -/
def docxItem (isExpEdu : Bool) (it : SubItem) : List DocxElem :=
  DocxElem.paragraph
      [DocxRun.bold (getHeading it), DocxRun.plain (str "\t"), DocxRun.italic (getDate it)]
      false none
    :: (if isExpEdu && !((getOrganization it).isEmpty && (getLocation it).isEmpty) then
        [DocxElem.paragraph
          [DocxRun.italic (orgInfo (getOrganization it) (getLocation it))] false none]
      else [])
    ++ ((getBullets it).filter bNonBlank).map
      (fun b => DocxElem.paragraph [DocxRun.plain b] false (some (str "List Bullet")))

/-- Embedding of the `add_docx_section` helper (source lines 1080-1119):
skipped when the section is `None` or has no subsections; the
organization/location line is only produced for the Experience and
Education titles. -/
def add_docx_section (title : List Char) : Option ResumeSection → List DocxElem
  | none => []
  | some s =>
    if s.subsections.isEmpty then []
    else DocxElem.heading title 1
      :: (s.subsections.map
          (docxItem (title == str "Experience" || title == str "Education"))).flatten
      ++ [DocxElem.paragraph [] false none]

/-- Skills block of the DOCX output (source lines 1128-1133): a heading and
one bold run per line. -/
def skillsDocx : Option ResumeSection → List DocxElem
  | none => []
  | some s =>
    if s.lines.isEmpty then []
    else DocxElem.heading (str "Skills") 1
      :: s.lines.map (fun l => DocxElem.paragraph [DocxRun.bold l] false none)
      ++ [DocxElem.paragraph [] false none]

/-- Embedding of `structure_to_docx` (source lines 1050-1139): the
document elements in emission order. -/
def structure_to_docx (r : StructuredResume) : List DocxElem :=
  contactDocx r.contact
    ++ summaryDocx r.summary
    ++ add_docx_section (str "Education") r.education
    ++ add_docx_section (str "Experience") r.experience
    ++ add_docx_section (str "Projects") r.projects
    ++ add_docx_section (str "Certifications & Achievements") r.certifications
    ++ skillsDocx r.skills

/-! ## Preserve-mode LaTeX serializer (src/app.py lines 989-1047)

`replace_section_content` matches
`(\\section\{TITLE\})(.+?)(?=\\section|\\end\{document\})` with
`re.DOTALL | re.IGNORECASE` and substitutes the leftmost match (count 1)
with the template `r"\1" + "\n" + new_section_body`; when the section is
not found it appends the new section via `str.replace` on
`\end{document}`.  Matching is embedded positionally: the regex match is
the leftmost marker position `i` for which some body-end position `j`
exists; `(.+?)` is non-greedy, so `j` is the smallest position at least
one character past the marker where the lookahead (`\section` or
`\end{document}`, case-insensitively) matches. -/

/-- Matching of one compiled pattern character `p` against one document
character `c` under `re.IGNORECASE` in Unicode mode, for the ASCII-only
patterns used here.  CPython compiles an ASCII literal to its lowercase
`lp` and, when `lp` has entries in the `_equivalences` casefold table
(for ASCII keys: `i` with dotless ı U+0131, `s` with long ſ U+017F), to
the set of those characters; at match time the input character is
lowered with the Unicode simple-lowercase mapping and tested against the
literal or the set.  The only characters outside ASCII whose simple
lowercase lands in ASCII are İ U+0130 (to `i`) and the Kelvin sign
U+212A (to `k`), mapped explicitly; every other non-ASCII input lowers
outside the ASCII pattern alphabet and can only match itself, which
`Char.toLower` (identity outside ASCII uppercase) reflects. -/
def ciEq (p c : Char) : Bool :=
  let lp := p.toLower
  let lc := if c.toNat = 0x130 then 'i'
    else if c.toNat = 0x212A then 'k'
    else c.toLower
  if lp = 'i' then lc = 'i' || lc.toNat = 0x131
  else if lp = 's' then lc = 's' || lc.toNat = 0x17F
  else lc = lp

/-- Case-insensitive prefix test. -/
def ciStartsWith : List Char → List Char → Bool
  | [], _ => true
  | _ :: _, [] => false
  | p :: ps, c :: cs => ciEq p c && ciStartsWith ps cs

/-- Section heading marker `\section{TITLE}` built by the pattern of
source line 1000. -/
def sectionMarker (title : List Char) : List Char :=
  str "\\section\x7b" ++ title ++ str "\x7d"

/-- Lookahead test of the pattern: `\section` or `\end{document}` matches
at position `j`. -/
def nextMarkerAt (s : List Char) (j : Nat) : Bool :=
  ciStartsWith (str "\\section") (s.drop j)
    || ciStartsWith (str "\\end\x7bdocument\x7d") (s.drop j)

/-- First position in `0..n` that is at least `j` and satisfies `p`. -/
def findFrom (n : Nat) (p : Nat → Bool) (j : Nat) : Option Nat :=
  (List.range (n + 1)).find? (fun k => decide (j ≤ k) && p k)

/-- Leftmost regex match: the marker start `i` and the body end `j` (the
position of the lookahead; the matched text spans `[i, j)`). -/
def findMatch (s : List Char) (title : List Char) : Option (Nat × Nat) :=
  match (List.range (s.length + 1)).find? (fun i =>
      ciStartsWith (sectionMarker title) (s.drop i)
        && (findFrom s.length (nextMarkerAt s) (i + (sectionMarker title).length + 1)).isSome) with
  | none => none
  | some i =>
    match findFrom s.length (nextMarkerAt s) (i + (sectionMarker title).length + 1) with
    | none => none
    | some j => some (i, j)

/-- Octal digit test for replacement-template escapes. -/
def isOct (c : Char) : Bool := '0' ≤ c && c ≤ '7'

/-- Value of a list of octal digits. -/
def octVal (ds : List Char) : Nat := ds.foldl (fun n c => n * 8 + (c.toNat - 48)) 0

/-- Value of a list of decimal digits. -/
def digitsVal (ds : List Char) : Nat := ds.foldl (fun n c => n * 10 + (c.toNat - 48)) 0

/-- Expansion of a `re.sub` replacement template (fuelled for structural
recursion; the fuel is the template length, and each step consumes at
least one character).  `g1` is the text of group 1 (the matched marker),
`g2` that of group 2 (the matched old body).  Semantics of CPython
`re`: `\\` is a backslash; `\1`/`\2` (and `\g<n>`) insert a group, other
group numbers are errors; `\0` plus up to two octal digits, or three
octal digits, are an octal character escape; `\a \b \f \n \r \t \v` are
the control characters; a three-digit octal escape above `0o377` is an
error (`re.error: octal escape value outside of range 0-0o377`); any
other escaped ASCII letter and a trailing backslash are errors; other
escaped characters are kept verbatim with their backslash. -/
def templExpandFuel (g1 g2 : List Char) : Nat → List Char → Except Unit (List Char)
  | 0, l => if l.isEmpty then Except.ok [] else Except.error ()
  | _ + 1, [] => Except.ok []
  | fuel + 1, '\\' :: rest =>
    match rest with
    | [] => Except.error ()
    | c :: r1 =>
      if c = '\\' then (fun t => '\\' :: t) <$> templExpandFuel g1 g2 fuel r1
      else if c = 'g' then
        match r1 with
        | '<' :: r2 =>
          let ds := r2.takeWhile Char.isDigit
          (match r2.dropWhile Char.isDigit with
          | '>' :: r3 =>
            if ds.isEmpty then Except.error ()
            else if digitsVal ds = 0 then (fun t => g1 ++ g2 ++ t) <$> templExpandFuel g1 g2 fuel r3
            else if digitsVal ds = 1 then (fun t => g1 ++ t) <$> templExpandFuel g1 g2 fuel r3
            else if digitsVal ds = 2 then (fun t => g2 ++ t) <$> templExpandFuel g1 g2 fuel r3
            else Except.error ()
          | _ => Except.error ())
        | _ => Except.error ()
      else if c = '0' then
        let ds := (r1.takeWhile isOct).take 2
        (fun t => Char.ofNat (octVal ds) :: t)
          <$> templExpandFuel g1 g2 fuel (r1.drop ds.length)
      else if c.isDigit then
        match r1 with
        | d2 :: r2 =>
          if d2.isDigit then
            match r2 with
            | d3 :: r3 =>
              if isOct c && isOct d2 && isOct d3 then
                if octVal [c, d2, d3] > 255 then Except.error ()
                else (fun t => Char.ofNat (octVal [c, d2, d3]) :: t)
                  <$> templExpandFuel g1 g2 fuel r3
              else Except.error ()
            | [] => Except.error ()
          else if c = '1' then (fun t => g1 ++ t) <$> templExpandFuel g1 g2 fuel r1
          else if c = '2' then (fun t => g2 ++ t) <$> templExpandFuel g1 g2 fuel r1
          else Except.error ()
        | [] =>
          if c = '1' then Except.ok g1
          else if c = '2' then Except.ok g2
          else Except.error ()
      else if c = 'a' then (fun t => '\x07' :: t) <$> templExpandFuel g1 g2 fuel r1
      else if c = 'b' then (fun t => '\x08' :: t) <$> templExpandFuel g1 g2 fuel r1
      else if c = 'f' then (fun t => '\x0c' :: t) <$> templExpandFuel g1 g2 fuel r1
      else if c = 'n' then (fun t => '\n' :: t) <$> templExpandFuel g1 g2 fuel r1
      else if c = 'r' then (fun t => '\x0d' :: t) <$> templExpandFuel g1 g2 fuel r1
      else if c = 't' then (fun t => '\t' :: t) <$> templExpandFuel g1 g2 fuel r1
      else if c = 'v' then (fun t => '\x0b' :: t) <$> templExpandFuel g1 g2 fuel r1
      else if c.isAlpha then Except.error ()
      else (fun t => '\\' :: c :: t) <$> templExpandFuel g1 g2 fuel r1
  | fuel + 1, c :: rest => (fun t => c :: t) <$> templExpandFuel g1 g2 fuel rest

/-- Expansion of a replacement template with adequate fuel. -/
def templateExpand (g1 g2 template : List Char) : Except Unit (List Char) :=
  templExpandFuel g1 g2 template.length template

/-- Embedding of `str.replace` for a nonempty multi-character pattern:
left-to-right, non-overlapping, all occurrences (fuelled structural
recursion with adequate fuel supplied by `pyReplaceAll`). -/
def pyReplaceAllFuel (pat repl : List Char) : Nat → List Char → List Char
  | 0, l => l
  | _ + 1, [] => []
  | fuel + 1, c :: rest =>
    if startsWith pat (c :: rest) && !pat.isEmpty then
      repl ++ pyReplaceAllFuel pat repl fuel ((c :: rest).drop pat.length)
    else c :: pyReplaceAllFuel pat repl fuel rest

/-- Embedding of `str.replace(pat, repl)` (all occurrences). -/
def pyReplaceAll (pat repl l : List Char) : List Char :=
  pyReplaceAllFuel pat repl l.length l

/-- Embedding of `replace_section_content` (source lines 997-1009).  On a
match, `pattern.sub(r"\1" + "\n" + new_section_body, full_latex, 1)`
replaces the matched span `[i, j)` by the expansion of the template
`\1` + newline + body (expansion errors of the template propagate as the
`re.error` exceptions CPython raises).  When the section is not found,
the new section text is spliced in with `str.replace` on
`\end{document}` (case-sensitively, every occurrence). -/
def replace_section_content (fullLatex title body : List Char) :
    Except Unit (List Char) :=
  match findMatch fullLatex title with
  | some (i, j) =>
    (templateExpand ((fullLatex.drop i).take (sectionMarker title).length)
        ((fullLatex.take j).drop (i + (sectionMarker title).length))
        (str "\\1\n" ++ body)).map
      (fun e => fullLatex.take i ++ e ++ fullLatex.drop j)
  | none =>
    Except.ok (pyReplaceAll (str "\\end\x7bdocument\x7d")
      (sectionMarker title ++ ('\n' :: body) ++ str "\n\n\\end\x7bdocument\x7d") fullLatex)

/-- Section body accumulated in `content_lines` by
`preserve_original_latex_structure` (source lines 1013-1026 and
1031-1042); the f-strings are the same ones used by the fallback
serializer items. -/
def preserveSectionBody (itemRender : SubItem → List (List Char)) (subs : List SubItem) :
    List Char :=
  joinLines (str "  \\\\resumeSubHeadingListStart"
    :: (subs.map itemRender).flatten
    ++ [str "  \\\\resumeSubHeadingListEnd"])

/-- Embedding of `preserve_original_latex_structure` (source lines
989-1047): the Experience section is replaced first (when present with
subsections), then the Projects section in the updated text; all other
sections are left to the original document. -/
def preserve_original_latex_structure (r : StructuredResume) (originalLatex : List Char) :
    Except Unit (List Char) := do
  let u0 := originalLatex
  let u1 ← match r.experience with
    | some s =>
      if s.subsections.isEmpty then pure u0
      else (replace_section_content u0 (str "Experience")
        (preserveSectionBody subheadingItemLines s.subsections))
    | none => pure u0
  let u2 ← match r.projects with
    | some s =>
      if s.subsections.isEmpty then pure u1
      else (replace_section_content u1 (str "Projects")
        (preserveSectionBody projectItemLines s.subsections))
    | none => pure u1
  pure u2

/-- Embedding of `structure_to_latex` (source lines 783-986): preserve
mode when a truthy (nonempty) original document is supplied, fallback
template otherwise. -/
def structure_to_latex (r : StructuredResume) (originalLatex : Option (List Char)) :
    Except Unit (List Char) :=
  match originalLatex with
  | some d =>
    if d.isEmpty then Except.ok (joinLines (fallbackLatexLines r))
    else preserve_original_latex_structure r d
  | none => Except.ok (joinLines (fallbackLatexLines r))

/-! ## LLM-backed content optimizers (src/app.py lines 565-659 and 661-781)

`apply_ats_feedback` and `optimize_content_lines` send a prompt, strip
Markdown fences from the response, `json.loads` it, and rebuild a fresh
`StructuredResume` from the parsed dict.  The network call plus JSON
parsing is modelled by its outcome: `none` when the response is not
parseable (any exception before the dict accesses), `some d` when a dict
of the expected schema was obtained.  Missing `title` (or `lines` for the
line-based sections) under a present key raises `KeyError` (`data[k][f]`
indexing), which the enclosing `except` turns into the fallback. -/

/-- One parsed top-level section object of an optimizer response. -/
structure RespSection where
  title : Option (List Char)
  lines : Option (List (List Char))
  subsections : Option (List SubItem)
deriving DecidableEq

/-- Parsed optimizer response: each resume key may be present or absent. -/
structure RespData where
  contact : Option RespSection := none
  summary : Option RespSection := none
  experience : Option RespSection := none
  skills : Option RespSection := none
  education : Option RespSection := none
  projects : Option RespSection := none
  certifications : Option RespSection := none
deriving DecidableEq

/-- Dict indexing `data[k][field]`: raises (`KeyError`) when absent. -/
def requireField (v : Option α) : Except Unit α :=
  match v with
  | some x => Except.ok x
  | none => Except.error ()

/-- Section rebuilt from `title` and `lines` (contact, summary, skills:
source lines 609-613 etc.); `subsections` keeps its dataclass default. -/
def buildLinesSection (sec : RespSection) : Except Unit ResumeSection := do
  let t ← requireField sec.title
  let l ← requireField sec.lines
  pure ⟨t, l, []⟩

/-- Section rebuilt from `title` and `subsections` with `lines=[]`
(experience, education, projects, certifications: source lines 621-626
etc.); `subsections` uses `.get("subsections", [])`. -/
def buildSubsSection (sec : RespSection) : Except Unit ResumeSection := do
  let t ← requireField sec.title
  pure ⟨t, [], sec.subsections.getD []⟩

/-- Rebuild of one optional key. -/
def buildOpt (f : RespSection → Except Unit ResumeSection) :
    Option RespSection → Except Unit (Option ResumeSection)
  | some s => Option.some <$> f s
  | none => Except.ok none

/-- Construction of the improved resume from a parsed response dict, in
source order (lines 607-653 and 727-774; the two functions share this
construction verbatim).  No comparison against the input resume occurs. -/
def buildImproved (d : RespData) : Except Unit StructuredResume := do
  let contact ← buildOpt buildLinesSection d.contact
  let summary ← buildOpt buildLinesSection d.summary
  let experience ← buildOpt buildSubsSection d.experience
  let skills ← buildOpt buildLinesSection d.skills
  let education ← buildOpt buildSubsSection d.education
  let projects ← buildOpt buildSubsSection d.projects
  let certifications ← buildOpt buildSubsSection d.certifications
  pure ⟨contact, summary, experience, skills, education, projects, certifications⟩

/-- Embedding of `optimize_content_lines` (source lines 661-781): any
exception during parsing or reconstruction falls back to the input
`structured_resume`; otherwise the freshly built resume is returned. -/
def optimize_content_lines (r : StructuredResume) (resp : Option RespData) :
    StructuredResume :=
  match resp with
  | none => r
  | some d =>
    match buildImproved d with
    | Except.ok r2 => r2
    | Except.error _ => r

/-- Embedding of `apply_ats_feedback` (source lines 565-659): identical
response handling to `optimize_content_lines` (the source duplicates the
construction). -/
def apply_ats_feedback (r : StructuredResume) (resp : Option RespData) :
    StructuredResume :=
  match resp with
  | none => r
  | some d =>
    match buildImproved d with
    | Except.ok r2 => r2
    | Except.error _ => r

/-- Call-level view of `optimize_content_lines`: the pair holds the state
of the caller's `structured_resume` object after the call and the
returned value.  The source body never assigns to any attribute of its
argument (it only reads it via `to_json_serializable` and may return it),
so the post-state is the argument itself. -/
def optimize_content_lines_call (r : StructuredResume) (resp : Option RespData) :
    StructuredResume × StructuredResume :=
  (r, optimize_content_lines r resp)

/-- Call-level view of `apply_ats_feedback`, as for
`optimize_content_lines_call`. -/
def apply_ats_feedback_call (r : StructuredResume) (resp : Option RespData) :
    StructuredResume × StructuredResume :=
  (r, apply_ats_feedback r resp)

/-- Shape of one optional section: presence plus subsection count. -/
def sectionShape : Option ResumeSection → Option Nat
  | none => none
  | some s => some s.subsections.length

/-- Shape equality in the sense of the specification (this definition
follows the wording of the spec, for comparison against the code):
same set of present section keys and matching subsection counts per
section. -/
def specSameShape (a b : StructuredResume) : Bool :=
  sectionShape a.contact == sectionShape b.contact
    && sectionShape a.summary == sectionShape b.summary
    && sectionShape a.experience == sectionShape b.experience
    && sectionShape a.skills == sectionShape b.skills
    && sectionShape a.education == sectionShape b.education
    && sectionShape a.projects == sectionShape b.projects
    && sectionShape a.certifications == sectionShape b.certifications

/-! ## PDF compilation (src/app.py lines 1279-1329)

`compile_latex_to_pdf` shows a debug expander and an info message and
then calls `compile_latex_to_pdf_online`; no other compilation backend is
invoked anywhere in the module.  The HTTP interaction of
`compile_latex_to_pdf_online` is modelled by the received response; the
network-level exception paths (timeout, connection errors) return `None`
with their own messages and are outside the response model. -/

/-- Compilation backends named by the specification. -/
inductive CompilerKind where
  | localTool
  | onlineService
deriving DecidableEq

/-- Outcome of `response.json()` followed by `.get('logs', ...)` on the
failure path (source lines 1306-1319): the body may not be JSON (or the
lookup may raise `AttributeError`), may be JSON without a `logs` field,
or may carry a `logs` value that is or is not a string (a non-string is
rendered by the f-string). -/
inductive JsonOutcome where
  | notJson
  | jsonNoLogs
  | jsonLogsStr (logs : List Char)
  | jsonLogsOther (rendered : List Char)
deriving DecidableEq

/-- The received HTTP response: status code, body bytes, body text, and
the outcome of JSON-decoding the body. -/
structure HttpResponse where
  statusCode : Nat
  content : List Nat
  text : List Char
  jsonOutcome : JsonOutcome
deriving DecidableEq

/-- Result of the compilation call: PDF bytes or an error message shown
to the user. -/
inductive CompileResult where
  | pdf (bytes : List Nat)
  | failure (message : List Char)
deriving DecidableEq

/-- The literal ASCII bytes of `b'%PDF'`. -/
def pdfSignature : List Nat := [37, 80, 68, 70]

/-- Byte-list prefix test. -/
def bytesStartsWith : List Nat → List Nat → Bool
  | [], _ => true
  | _ :: _, [] => false
  | p :: ps, c :: cs => p = c && bytesStartsWith ps cs

/-- Embedding of the `b'...'` wrapper stripping (source lines 1312-1313):
`logs[2:-1]` when the string starts with `b'` and ends with `'`. -/
def stripLogsWrapper (logs : List Char) : List Char :=
  if startsWith (str "b'") logs
      && (match logs.getLast? with | some c => c = '\'' | none => false) then
    (logs.drop 2).dropLast
  else logs

/-- Failure message assembled on the rejection path (source lines
1304-1319). -/
def onlineFailureMessage (resp : HttpResponse) : List Char :=
  let base := str "Online PDF compilation failed. HTTP Status: "
    ++ str (Nat.repr resp.statusCode)
  match resp.jsonOutcome with
  | JsonOutcome.notJson => base ++ str "\n\n**Raw Error Response:**\n" ++ resp.text
  | JsonOutcome.jsonNoLogs =>
    base ++ str "\n\n**Compiler Logs:**\n" ++ str "No logs were returned."
  | JsonOutcome.jsonLogsStr logs =>
    base ++ str "\n\n**Compiler Logs:**\n" ++ stripLogsWrapper logs
  | JsonOutcome.jsonLogsOther rendered =>
    base ++ str "\n\n**Compiler Logs:**\n" ++ rendered

/-- Embedding of `compile_latex_to_pdf_online` (source lines 1289-1329):
a response is accepted exactly when its status is 200 or 201, its content
is truthy (nonempty) and the content starts with `b'%PDF'`. -/
def compile_latex_to_pdf_online (resp : HttpResponse) : CompileResult :=
  if (resp.statusCode == 200 || resp.statusCode == 201)
      && !resp.content.isEmpty && bytesStartsWith pdfSignature resp.content then
    CompileResult.pdf resp.content
  else CompileResult.failure (onlineFailureMessage resp)

/-- Embedding of `compile_latex_to_pdf` (source lines 1279-1287).  The
first component records, in order, the compilation backends the call
invokes; the body only calls the online service.  The `localAvailable`
parameter states whether a command-line LaTeX compiler is installed in
the environment; the source never consults any such condition. -/
def compile_latex_to_pdf (_localAvailable : Bool) (resp : HttpResponse) :
    List CompilerKind × CompileResult :=
  ([CompilerKind.onlineService], compile_latex_to_pdf_online resp)

/-! ## Concrete fixture for the preserve-mode witness -/

/-- Original document for the preserve-mode witness. -/
def c2Doc : List Char :=
  str "A\\section\x7bExperience\x7dOLD\\section\x7bProjects\x7dOLD2\\end\x7bdocument\x7d"

/-- Experience section of the preserve-mode witness resume. -/
def c2ExpSection : ResumeSection :=
  ⟨str "Experience", [],
    [⟨some (str "H"), some (str "O"), some (str "L"), some (str "D"), none⟩]⟩

/-- Projects section of the preserve-mode witness resume. -/
def c2ProjSection : ResumeSection :=
  ⟨str "Projects", [], [⟨some (str "P"), none, none, some (str "Q"), none⟩]⟩

/-- Resume of the preserve-mode witness. -/
def c2Resume : StructuredResume :=
  ⟨none, none, some c2ExpSection, none, none, some c2ProjSection, none⟩

/-- Expansion of the Experience replacement in the witness document. -/
def c2E1 : List Char :=
  str "\\section\x7bExperience\x7d\n  \\resumeSubHeadingListStart\n    \\resumeSubheading\x7bH\x7d\x7bD\x7d\x7bO\x7d\x7bL\x7d\n  \\resumeSubHeadingListEnd"

/-- Expansion of the Projects replacement in the witness document. -/
def c2E2 : List Char :=
  str "\\section\x7bProjects\x7d\n  \\resumeSubHeadingListStart\n    \\resumeProjectHeading\x7b\\textbf\x7bP\x7d\x7d\x7bQ\x7d\n  \\resumeSubHeadingListEnd"

/-- Intermediate document of the witness after the Experience replacement. -/
def c2Inter : List Char := c2Doc.take 1 ++ c2E1 ++ c2Doc.drop 24

/-! ## Fixtures for the missing-key claim -/

/-- Completion of a subsection entry: every missing key is filled with the
default that `item.get(key, default)` supplies for it (empty string,
empty bullet list); present keys are kept. -/
def completeItem (it : SubItem) : SubItem :=
  ⟨some (getHeading it), some (getOrganization it), some (getLocation it),
    some (getDate it), some (getBullets it)⟩

/-- Entry whose heading carries a surviving `\underline` command and whose
other keys — including `bullets` — are missing. -/
def c10Item : SubItem := ⟨some (str "\\underline\x7bx\x7d"), none, none, none, none⟩

/-- Resume rendering `c10Item` as its only Experience entry. -/
def c10Resume : StructuredResume :=
  ⟨none, none, some ⟨str "Experience", [], [c10Item]⟩, none, none, none, none⟩

/-- Original document containing an Experience section to replace. -/
def c10Doc : List Char :=
  str "A\\section\x7bExperience\x7dOLD\\end\x7bdocument\x7d"


/-! ### Sanitizer lemmas -/

/-- Stripping commands is the identity on backslash-free text. -/
theorem stripCommandsFuel_of_no_backslash (fuel : Nat) (l : List Char)
    (hf : l.length ≤ fuel) (h : ∀ c ∈ l, c ≠ '\\') : stripCommandsFuel fuel l = l := by
  induction fuel generalizing l with
  | zero => rfl
  | succ n ih =>
    cases l with
    | nil => rfl
    | cons c rest =>
      have hc : c ≠ '\\' := h c (by simp)
      simp only [stripCommandsFuel, if_neg hc]
      have hrest : rest.length ≤ n := Nat.le_of_succ_le_succ hf
      rw [ih rest hrest (fun x hx => h x (by simp [hx]))]

/-- Specialization of `stripCommandsFuel_of_no_backslash` to `stripCommands`. -/
theorem stripCommands_of_no_backslash (l : List Char)
    (h : ∀ c ∈ l, c ≠ '\\') : stripCommands l = l :=
  stripCommandsFuel_of_no_backslash l.length l (Nat.le_refl _) h

/-- Characters of `latexSpecials` are not the backslash. -/
theorem specials_ne_backslash (c : Char) (h : c ∈ latexSpecials) : c ≠ '\\' := by
  simp only [latexSpecials, List.mem_cons, List.not_mem_nil, or_false] at h
  rcases h with h | h | h | h | h | h | h | h | h <;> subst h <;> decide

/-- Replacing one character distributes over concatenation. -/
theorem replaceChar_append (c : Char) (r a b : List Char) :
    replaceChar c r (a ++ b) = replaceChar c r a ++ replaceChar c r b := by
  induction a with
  | nil => rfl
  | cons x xs ih => simp [replaceChar, ih]

/-- Folding a list of replacements distributes over concatenation. -/
theorem foldl_replace_append (ps : List (Char × List Char)) (a b : List Char) :
    ps.foldl (fun acc p => replaceChar p.1 p.2 acc) (a ++ b)
      = ps.foldl (fun acc p => replaceChar p.1 p.2 acc) a
        ++ ps.foldl (fun acc p => replaceChar p.1 p.2 acc) b := by
  induction ps generalizing a b with
  | nil => rfl
  | cons p ps ih => simp only [List.foldl_cons, replaceChar_append, ih]

/-- The full replacement pass distributes over concatenation. -/
theorem applyReplacements_append (a b : List Char) :
    applyReplacements (a ++ b) = applyReplacements a ++ applyReplacements b :=
  foldl_replace_append _ a b

/-- Applying all replacements to one special character yields its escape
form (the later replacements do not disturb an earlier escape form). -/
theorem applyReplacements_single_special (c : Char) (h : c ∈ latexSpecials) :
    applyReplacements [c] = escMap c := by
  simp only [latexSpecials, List.mem_cons, List.not_mem_nil, or_false] at h
  rcases h with h | h | h | h | h | h | h | h | h <;> subst h <;> decide

/-- Replacing a character that does not occur leaves the text unchanged. -/
theorem replaceChar_of_not_mem (c : Char) (r : List Char) (l : List Char)
    (h : c ∉ l) : replaceChar c r l = l := by
  induction l with
  | nil => rfl
  | cons x xs ih =>
    have hx : x ≠ c := fun he => h (by simp [he])
    simp only [replaceChar, if_neg hx, List.singleton_append, List.cons.injEq, true_and]
    exact ih (fun hm => h (by simp [hm]))

/-- The replacement pass is the identity on text without special characters. -/
theorem applyReplacements_of_no_special (l : List Char)
    (h : ∀ c ∈ latexSpecials, c ∉ l) : applyReplacements l = l := by
  have : ∀ ps : List (Char × List Char), (∀ p ∈ ps, p.1 ∈ latexSpecials) →
      ps.foldl (fun acc p => replaceChar p.1 p.2 acc) l = l := by
    intro ps
    induction ps with
    | nil => intro _; rfl
    | cons p ps ih =>
      intro hps
      simp only [List.foldl_cons]
      rw [replaceChar_of_not_mem p.1 p.2 l (h p.1 (hps p (by simp)))]
      exact ih (fun q hq => hps q (by simp [hq]))
  exact this latexCharReplacements (by decide)

/-- Escaping a specials-only string is the character-wise concatenation of
escape forms. -/
theorem applyReplacements_concatMap (l : List Char)
    (h : ∀ c ∈ l, c ∈ latexSpecials) : applyReplacements l = concatMapStr escMap l := by
  induction l with
  | nil => rfl
  | cons c cs ih =>
    have : (c :: cs) = [c] ++ cs := rfl
    rw [this, applyReplacements_append, applyReplacements_single_special c (h c (by simp)),
      ih (fun x hx => h x (by simp [hx]))]
    rfl

/-- Prefix testing against a concatenation splits at the boundary. -/
theorem startsWith_append (p a b : List Char) :
    startsWith p (a ++ b)
      = (startsWith (p.take a.length) a && startsWith (p.drop a.length) b) := by
  induction a generalizing p with
  | nil =>
    simp only [List.nil_append, List.length_nil, List.take_zero, List.drop_zero]
    rfl
  | cons x xs ih =>
    cases p with
    | nil => rfl
    | cons q qs =>
      simp only [List.cons_append, List.length_cons, List.take_succ_cons,
        List.drop_succ_cons, startsWith, List.append_eq]
      rw [ih qs]
      by_cases hq : q = x
      · simp [hq]
      · simp [hq]

/-- A list is a `startsWith`-prefix of itself followed by anything. -/
theorem startsWith_self_append (p b : List Char) : startsWith p (p ++ b) = true := by
  induction p with
  | nil => rfl
  | cons x xs ih => simp [startsWith, ih]

/-- Prefix test against a concatenation fails when it already fails on the
fixed first part. -/
theorem startsWith_concat_false (f a rest : List Char)
    (h : startsWith (f.take a.length) a = false) : startsWith f (a ++ rest) = false := by
  rw [startsWith_append, h, Bool.false_and]

/-- Prefix test against a concatenation succeeds when both parts succeed. -/
theorem startsWith_concat_true (f a rest : List Char)
    (h1 : startsWith (f.take a.length) a = true)
    (h2 : startsWith (f.drop a.length) rest = true) : startsWith f (a ++ rest) = true := by
  rw [startsWith_append, h1, h2]; rfl

/-- Evaluation step for `find?` over escape forms: a non-matching head is
skipped (the mismatch is visible within the fixed part `base`). -/
theorem find_skip (a : List Char) (l : List (List Char)) (base rest : List Char)
    (h : startsWith (a.take base.length) base = false) :
    List.find? (fun f => startsWith f (base ++ rest)) (a :: l)
      = List.find? (fun f => startsWith f (base ++ rest)) l := by
  simp [List.find?_cons, startsWith_concat_false a base rest h]

/-- Evaluation step for `find?` over escape forms: a matching head is hit. -/
theorem find_hit (a : List Char) (l : List (List Char)) (base rest : List Char)
    (h1 : startsWith (a.take base.length) base = true)
    (h2 : startsWith (a.drop base.length) rest = true) :
    List.find? (fun f => startsWith f (base ++ rest)) (a :: l) = some a := by
  simp [List.find?_cons, startsWith_concat_true a base rest h1 h2]

/-- Finding an escape form at the start of `escMap c ++ rest` returns
exactly `escMap c`: the nine forms are pairwise non-prefix. -/
theorem find_form_of_special (c : Char) (h : c ∈ latexSpecials) (rest : List Char) :
    escapeForms.find? (fun f => startsWith f (escMap c ++ rest)) = some (escMap c) := by
  simp only [latexSpecials, List.mem_cons, List.not_mem_nil, or_false] at h
  rcases h with h | h | h | h | h | h | h | h | h <;> subst h <;>
    simp only [escapeForms, latexCharReplacements, List.map_cons, List.map_nil] <;>
    (repeat rw [find_skip _ _ _ rest (by decide)]) <;>
    rw [find_hit _ _ _ rest (by decide) (by rfl)] <;>
    rfl

/-- Unfolding equation of `okEscaped` at a nonempty list. -/
theorem okEscaped_cons (c : Char) (rest : List Char) :
    okEscaped (c :: rest)
      = match escapeForms.find? (fun f => startsWith f (c :: rest)) with
        | some f => okEscaped (rest.drop (f.length - 1))
        | none => if latexSpecials.contains c then false else okEscaped rest := by
  rw [okEscaped]

/-- The checker consumes a leading escape form as a whole. -/
theorem okEscaped_form_cons (c : Char) (h : c ∈ latexSpecials) (l : List Char) :
    okEscaped (escMap c ++ l) = okEscaped l := by
  obtain ⟨d, tail, he⟩ : ∃ d tail, escMap c = d :: tail := by
    simp only [latexSpecials, List.mem_cons, List.not_mem_nil, or_false] at h
    rcases h with h | h | h | h | h | h | h | h | h <;> subst h <;> exact ⟨_, _, rfl⟩
  rw [he, List.cons_append, okEscaped_cons, ← List.cons_append, ← he,
    find_form_of_special c h l]
  simp only [he, List.length_cons, Nat.add_sub_cancel, List.drop_left]

/-- A concatenation of escape forms passes the checker. -/
theorem okEscaped_concatMap (l : List Char) (h : ∀ c ∈ l, c ∈ latexSpecials) :
    okEscaped (concatMapStr escMap l) = true := by
  induction l with
  | nil => simp [concatMapStr, okEscaped]
  | cons c cs ih =>
    rw [concatMapStr, okEscaped_form_cons c (h c (by simp))]
    exact ih (fun x hx => h x (by simp [hx]))

/-- Characters of `latexSpecials` are not ASCII letters. -/
theorem specials_not_alpha (c : Char) (h : c ∈ latexSpecials) : c.isAlpha = false := by
  simp only [latexSpecials, List.mem_cons, List.not_mem_nil, or_false] at h
  rcases h with h | h | h | h | h | h | h | h | h <;> subst h <;> decide

/-- C4: for every input consisting only of the LaTeX special characters
`& % $ # _ { } ^ ~`, the output of `escape_latex_characters` contains no
unescaped occurrence of any of them: it is a concatenation of the escape
forms of the `latex_chars` table, as checked by `okEscaped`. -/
theorem escape_specials_no_unescaped (l : List Char)
    (h : ∀ c ∈ l, c ∈ latexSpecials) :
    okEscaped (escape_latex_characters l) = true := by
  match hl : l with
  | [] => simp [escape_latex_characters, okEscaped]
  | c :: cs =>
    rw [escape_latex_characters]
    have hne : ((c :: cs).isEmpty) = false := rfl
    rw [hne]
    simp only [Bool.false_eq_true, if_false]
    rw [stripCommands_of_no_backslash _ (fun x hx => specials_ne_backslash x (h x hx)),
      applyReplacements_concatMap _ h]
    exact okEscaped_concatMap _ h

/-- Witness for `escape_specials_no_unescaped` at the concrete string made
of all nine special characters. -/
theorem escape_specials_no_unescaped_witness :
    (∀ c ∈ str "&%$#_\x7b\x7d^~", c ∈ latexSpecials)
      ∧ okEscaped (escape_latex_characters (str "&%$#_\x7b\x7d^~")) = true :=
  ⟨by decide, escape_specials_no_unescaped _ (by decide)⟩

/-- Allow-list of command tokens named by the specification: `textbf`,
`textit`, `underline`, `hfill` (the remaining lookahead alternatives are
literal escaped-symbol forms, not letter tokens). -/
def claimAllowList : List (List Char) :=
  [str "textbf", str "textit", str "underline", str "hfill"]

/-- C5 counterexample: the token `\textbfabc` is not in the allow-list,
yet `escape_latex_characters` keeps it unchanged — the negative lookahead
of the stripping regex tests the allow-listed names only as prefixes, so
any token whose name merely begins with an allow-listed name survives. -/
theorem escape_keeps_nonallowlisted_token :
    escape_latex_characters (str "\\textbfabc") = str "\\textbfabc"
      ∧ (str "textbfabc") ∉ claimAllowList := by
  constructor
  · decide
  · decide

/-- Helper: `takeWhile` keeps a list all of whose elements satisfy `p`. -/
theorem takeWhile_all (p : Char → Bool) (l : List Char) (h : ∀ c ∈ l, p c = true) :
    l.takeWhile p = l := by
  induction l with
  | nil => rfl
  | cons c cs ih =>
    rw [List.takeWhile_cons, h c (by simp)]
    simp only [if_true, List.cons.injEq, true_and]
    exact ih (fun x hx => h x (by simp [hx]))

/-- Helper: `dropWhile` empties a list all of whose elements satisfy `p`. -/
theorem dropWhile_all (p : Char → Bool) (l : List Char) (h : ∀ c ∈ l, p c = true) :
    l.dropWhile p = [] := by
  induction l with
  | nil => rfl
  | cons c cs ih =>
    rw [List.dropWhile_cons, h c (by simp)]
    simp only [if_true]
    exact ih (fun x hx => h x (by simp [hx]))

/-- Helper: stripping the empty text yields the empty text for any fuel. -/
theorem stripCommandsFuel_nil (n : Nat) : stripCommandsFuel n [] = [] := by
  cases n <;> rfl

/-- C5 amended: on a single backslash-prefixed alphabetic token, the
sanitizer keeps the token exactly when the lookahead allow-list blocks the
stripping regex — that is, when the token name starts with one of the
allow-listed names — and removes the whole token otherwise. -/
theorem strip_token (w : List Char) (hw : w ≠ []) (hl : ∀ c ∈ w, c.isAlpha = true) :
    (allowedLookahead w = true → escape_latex_characters ('\\' :: w) = '\\' :: w)
    ∧ (allowedLookahead w = false → escape_latex_characters ('\\' :: w) = []) := by
  have hnospec : ∀ c ∈ latexSpecials, c ∉ ('\\' :: w) := by
    intro c hc hmem
    rcases List.mem_cons.mp hmem with h | h
    · exact specials_ne_backslash c hc h
    · have h1 := hl c h
      have h2 := specials_not_alpha c hc
      rw [h1] at h2
      exact absurd h2 (by decide)
  have hwnb : ∀ c ∈ w, c ≠ '\\' := by
    intro c hc he
    have h1 := hl c hc
    rw [he] at h1
    exact absurd h1 (by decide)
  obtain ⟨x, xs, rfl⟩ := List.exists_cons_of_ne_nil hw
  have step1 : stripCommandsFuel (xs.length + 2) ('\\' :: x :: xs)
      = if allowedLookahead (x :: xs) then '\\' :: stripCommandsFuel (xs.length + 1) (x :: xs)
        else if ((x :: xs).takeWhile Char.isAlpha).isEmpty then
          '\\' :: stripCommandsFuel (xs.length + 1) (x :: xs)
        else stripCommandsFuel (xs.length + 1) ((x :: xs).dropWhile Char.isAlpha) := rfl
  constructor
  · intro ha
    simp only [escape_latex_characters, List.isEmpty_cons, Bool.false_eq_true, if_false]
    have hstrip : stripCommands ('\\' :: x :: xs) = '\\' :: x :: xs := by
      show stripCommandsFuel (xs.length + 2) ('\\' :: x :: xs) = _
      rw [step1, if_pos ha,
        stripCommandsFuel_of_no_backslash (xs.length + 1) (x :: xs) (by simp) hwnb]
    rw [hstrip, applyReplacements_of_no_special _ hnospec]
  · intro ha
    simp only [escape_latex_characters, List.isEmpty_cons, Bool.false_eq_true, if_false]
    have hstrip : stripCommands ('\\' :: x :: xs) = [] := by
      show stripCommandsFuel (xs.length + 2) ('\\' :: x :: xs) = _
      rw [step1, if_neg (by simp [ha]),
        if_neg (by rw [takeWhile_all Char.isAlpha (x :: xs) hl]; simp),
        dropWhile_all Char.isAlpha (x :: xs) hl, stripCommandsFuel_nil]
    rw [hstrip]
    rfl

/-- Witness for `strip_token`: the allow-listed token `\textbf` is kept,
the unlisted token `\hack` is removed. -/
theorem strip_token_witness :
    (str "textbf" ≠ [] ∧ (∀ c ∈ str "textbf", c.isAlpha = true)
      ∧ allowedLookahead (str "textbf") = true
      ∧ escape_latex_characters ('\\' :: str "textbf") = '\\' :: str "textbf")
    ∧ (str "hack" ≠ [] ∧ (∀ c ∈ str "hack", c.isAlpha = true)
      ∧ allowedLookahead (str "hack") = false
      ∧ escape_latex_characters ('\\' :: str "hack") = []) :=
  ⟨⟨by decide, by decide, by decide,
      (strip_token (str "textbf") (by decide) (by decide)).1 (by decide)⟩,
    ⟨by decide, by decide, by decide,
      (strip_token (str "hack") (by decide) (by decide)).2 (by decide)⟩⟩

/-! ### Absent-section omission (C3) -/

/-- C3: both serializers emit their output as the concatenation of one
block per section, and the block of every section whose field is unset
(`None`) is empty — no header, no body, no empty rendering. -/
theorem absent_sections_omitted (r : StructuredResume) :
    structure_to_latex r none = Except.ok (joinLines (
      latexPreamble
        ++ contactBlock r.contact
        ++ summaryBlock r.summary
        ++ subsectionBlock (str "\\section\x7bEducation\x7d") subheadingItemLines r.education
        ++ subsectionBlock (str "\\section\x7bExperience\x7d") subheadingItemLines r.experience
        ++ subsectionBlock (str "\\section\x7bProjects\x7d") projectItemLines r.projects
        ++ subsectionBlock (str "\\section\x7bCertifications \\& Achievements\x7d")
          projectItemLines r.certifications
        ++ skillsBlock r.skills
        ++ [str "\\end\x7bdocument\x7d"]))
    ∧ structure_to_docx r = contactDocx r.contact ++ summaryDocx r.summary
        ++ add_docx_section (str "Education") r.education
        ++ add_docx_section (str "Experience") r.experience
        ++ add_docx_section (str "Projects") r.projects
        ++ add_docx_section (str "Certifications & Achievements") r.certifications
        ++ skillsDocx r.skills
    ∧ (r.contact = none → contactBlock r.contact = [] ∧ contactDocx r.contact = [])
    ∧ (r.summary = none → summaryBlock r.summary = [] ∧ summaryDocx r.summary = [])
    ∧ (r.education = none →
        subsectionBlock (str "\\section\x7bEducation\x7d") subheadingItemLines r.education = []
        ∧ add_docx_section (str "Education") r.education = [])
    ∧ (r.experience = none →
        subsectionBlock (str "\\section\x7bExperience\x7d") subheadingItemLines r.experience = []
        ∧ add_docx_section (str "Experience") r.experience = [])
    ∧ (r.projects = none →
        subsectionBlock (str "\\section\x7bProjects\x7d") projectItemLines r.projects = []
        ∧ add_docx_section (str "Projects") r.projects = [])
    ∧ (r.certifications = none →
        subsectionBlock (str "\\section\x7bCertifications \\& Achievements\x7d")
          projectItemLines r.certifications = []
        ∧ add_docx_section (str "Certifications & Achievements") r.certifications = [])
    ∧ (r.skills = none → skillsBlock r.skills = [] ∧ skillsDocx r.skills = []) := by
  refine ⟨rfl, rfl, ?_, ?_, ?_, ?_, ?_, ?_, ?_⟩ <;> (intro h; rw [h]; exact ⟨rfl, rfl⟩)

/-- Witness for `absent_sections_omitted` at the resume with every field
unset: every block is empty. -/
theorem absent_sections_omitted_witness :
    contactBlock none = [] ∧ contactDocx none = []
      ∧ skillsBlock none = [] ∧ skillsDocx none = [] :=
  ⟨((absent_sections_omitted ⟨none, none, none, none, none, none, none⟩).2.2.1 rfl).1,
    ((absent_sections_omitted ⟨none, none, none, none, none, none, none⟩).2.2.1 rfl).2,
    ((absent_sections_omitted ⟨none, none, none, none, none, none, none⟩).2.2.2.2.2.2.2.2 rfl).1,
    ((absent_sections_omitted ⟨none, none, none, none, none, none, none⟩).2.2.2.2.2.2.2.2 rfl).2⟩

/-! ### Missing subsection keys (C10) -/

/-- C10 counterexample: the serializers do not all complete without
raising on entries with missing keys.  The entry `c10Item` is missing
every key but `heading` (in particular `bullets`), yet preserve-mode
rendering of it raises: its heading keeps the allow-listed `\underline`
command, whose `\u` the `re.sub` replacement-template parser rejects
(`re.error: bad escape \u`), so `pattern.sub` raises instead of
returning a document. -/
theorem preserve_raises_on_missing_key_item :
    c10Item.bullets = none ∧ c10Item.organization = none ∧ c10Item.location = none
    ∧ c10Item.date = none
    ∧ preserve_original_latex_structure c10Resume c10Doc = Except.error () :=
  ⟨rfl, rfl, rfl, rfl, rfl⟩

/-- C10 amended: every serializer reads subsection fields through
`item.get(key, default)`, so an entry missing any subset of the keys
renders exactly as its completion, the entry carrying the explicit
defaults for the missing keys (empty strings, empty bullet list).  The
fallback LaTeX and DOCX serializers always complete on such entries;
preserve-mode rendering completes except that the replacement-template
expansion of the rendered body can raise, as `re.sub` does, on content
such as a surviving `\underline` command. -/
theorem missing_item_keys_default (it : SubItem) :
    subheadingItemLines it = subheadingItemLines (completeItem it)
    ∧ projectItemLines it = projectItemLines (completeItem it)
    ∧ (∀ b : Bool, docxItem b it = docxItem b (completeItem it))
    ∧ preserveSectionBody subheadingItemLines [it]
      = preserveSectionBody subheadingItemLines [completeItem it]
    ∧ preserveSectionBody projectItemLines [it]
      = preserveSectionBody projectItemLines [completeItem it]
    ∧ (it.heading = none → getHeading it = [])
    ∧ (it.organization = none → getOrganization it = [])
    ∧ (it.location = none → getLocation it = [])
    ∧ (it.date = none → getDate it = [])
    ∧ (it.bullets = none → getBullets it = []) := by
  refine ⟨rfl, rfl, fun b => rfl, rfl, rfl, ?_, ?_, ?_, ?_, ?_⟩ <;>
    · intro h
      simp [getHeading, getOrganization, getLocation, getDate, getBullets, h]

/-- Witness for `missing_item_keys_default` at an entry with `heading`
present and every other key missing. -/
theorem missing_item_keys_default_witness :
    subheadingItemLines ⟨some (str "Dev"), none, none, none, none⟩
      = subheadingItemLines (completeItem ⟨some (str "Dev"), none, none, none, none⟩)
    ∧ getBullets ⟨some (str "Dev"), none, none, none, none⟩ = []
    ∧ getDate ⟨some (str "Dev"), none, none, none, none⟩ = [] :=
  ⟨(missing_item_keys_default ⟨some (str "Dev"), none, none, none, none⟩).1,
    (missing_item_keys_default ⟨some (str "Dev"), none, none, none, none⟩).2.2.2.2.2.2.2.2.2 rfl,
    (missing_item_keys_default ⟨some (str "Dev"), none, none, none, none⟩).2.2.2.2.2.2.2.2.1 rfl⟩

/-! ### PDF compilation pipeline (C6, C7) -/

/-- C6 counterexample: even with a local command-line compiler available,
`compile_latex_to_pdf` invokes the online service as its first and only
backend — no local compilation path exists in the source. -/
theorem compile_pdf_no_local_first :
    (compile_latex_to_pdf true ⟨200, [37, 80, 68, 70], [], JsonOutcome.notJson⟩).1
      = [CompilerKind.onlineService]
    ∧ CompilerKind.localTool
      ∉ (compile_latex_to_pdf true ⟨200, [37, 80, 68, 70], [], JsonOutcome.notJson⟩).1 := by
  exact ⟨rfl, by decide⟩

/-- C6 amended: for every environment and every response,
`compile_latex_to_pdf` invokes exactly one backend, the online service;
no local compilation is ever attempted. -/
theorem compile_pdf_online_only (localAvailable : Bool) (resp : HttpResponse) :
    (compile_latex_to_pdf localAvailable resp).1 = [CompilerKind.onlineService]
    ∧ CompilerKind.localTool ∉ (compile_latex_to_pdf localAvailable resp).1
    ∧ (compile_latex_to_pdf localAvailable resp).2 = compile_latex_to_pdf_online resp := by
  refine ⟨rfl, ?_, rfl⟩
  intro hmem
  exact absurd (List.mem_singleton.mp hmem) (by decide)

/-- Nonempty byte prefixes only match nonempty lists. -/
theorem bytesStartsWith_ne_nil (p : Nat) (ps l : List Nat)
    (h : bytesStartsWith (p :: ps) l = true) : l ≠ [] := by
  intro he
  subst he
  simp [bytesStartsWith] at h

/-- C7: a response is accepted as a PDF exactly when its status code is
200 or 201 and its body starts with the ASCII `%PDF` signature; on
rejection, a JSON body's `logs` string is surfaced with the `b'...'`
wrapper stripped, and a non-JSON body is shown as raw text. -/
theorem online_response_contract (resp : HttpResponse) :
    ((compile_latex_to_pdf_online resp = CompileResult.pdf resp.content)
      ↔ ((resp.statusCode = 200 ∨ resp.statusCode = 201)
          ∧ bytesStartsWith pdfSignature resp.content = true))
    ∧ (∀ logs, resp.jsonOutcome = JsonOutcome.jsonLogsStr logs →
        compile_latex_to_pdf_online resp = CompileResult.pdf resp.content
        ∨ compile_latex_to_pdf_online resp = CompileResult.failure
            (str "Online PDF compilation failed. HTTP Status: "
              ++ str (Nat.repr resp.statusCode)
              ++ str "\n\n**Compiler Logs:**\n" ++ stripLogsWrapper logs))
    ∧ (resp.jsonOutcome = JsonOutcome.notJson →
        compile_latex_to_pdf_online resp = CompileResult.pdf resp.content
        ∨ compile_latex_to_pdf_online resp = CompileResult.failure
            (str "Online PDF compilation failed. HTTP Status: "
              ++ str (Nat.repr resp.statusCode)
              ++ str "\n\n**Raw Error Response:**\n" ++ resp.text)) := by
  have hiff : (compile_latex_to_pdf_online resp = CompileResult.pdf resp.content)
      ↔ ((resp.statusCode = 200 ∨ resp.statusCode = 201)
          ∧ bytesStartsWith pdfSignature resp.content = true) := by
    unfold compile_latex_to_pdf_online
    by_cases hcond : ((resp.statusCode == 200 || resp.statusCode == 201)
        && !resp.content.isEmpty && bytesStartsWith pdfSignature resp.content) = true
    · rw [if_pos hcond]
      simp only [Bool.and_eq_true, Bool.or_eq_true, beq_iff_eq, Bool.not_eq_true',
        List.isEmpty_eq_false] at hcond
      constructor
      · intro _
        exact ⟨hcond.1.1, hcond.2⟩
      · intro _
        rfl
    · rw [if_neg hcond]
      simp only [Bool.and_eq_true, Bool.or_eq_true, beq_iff_eq, Bool.not_eq_true',
        List.isEmpty_eq_false, not_and, not_or] at hcond
      constructor
      · intro he
        exact absurd he (by simp)
      · intro ⟨hst, hsig⟩
        exact absurd (hcond ⟨hst, bytesStartsWith_ne_nil 37 [80, 68, 70] resp.content hsig⟩)
          (by simp [hsig])
  refine ⟨hiff, ?_, ?_⟩
  · intro logs hj
    unfold compile_latex_to_pdf_online
    by_cases hcond : ((resp.statusCode == 200 || resp.statusCode == 201)
        && !resp.content.isEmpty && bytesStartsWith pdfSignature resp.content) = true
    · exact Or.inl (by rw [if_pos hcond])
    · refine Or.inr ?_
      rw [if_neg hcond]
      unfold onlineFailureMessage
      rw [hj]
  · intro hj
    unfold compile_latex_to_pdf_online
    by_cases hcond : ((resp.statusCode == 200 || resp.statusCode == 201)
        && !resp.content.isEmpty && bytesStartsWith pdfSignature resp.content) = true
    · exact Or.inl (by rw [if_pos hcond])
    · refine Or.inr ?_
      rw [if_neg hcond]
      unfold onlineFailureMessage
      rw [hj]

/-- Witness for `online_response_contract`: a 200 response starting with
`%PDF` is accepted; a 400 JSON response with a byte-string-wrapped `logs`
field is rejected with the wrapper stripped. -/
theorem online_response_contract_witness :
    (compile_latex_to_pdf_online ⟨200, [37, 80, 68, 70, 45, 49], [], JsonOutcome.notJson⟩
      = CompileResult.pdf [37, 80, 68, 70, 45, 49])
    ∧ ((⟨400, [], str "x", JsonOutcome.jsonLogsStr (str "b'bad tex'")⟩ : HttpResponse).jsonOutcome
        = JsonOutcome.jsonLogsStr (str "b'bad tex'"))
    ∧ (compile_latex_to_pdf_online ⟨400, [], str "x", JsonOutcome.jsonLogsStr (str "b'bad tex'")⟩
        = CompileResult.pdf []
      ∨ compile_latex_to_pdf_online ⟨400, [], str "x", JsonOutcome.jsonLogsStr (str "b'bad tex'")⟩
        = CompileResult.failure
          (str "Online PDF compilation failed. HTTP Status: " ++ str (Nat.repr 400)
            ++ str "\n\n**Compiler Logs:**\n"
            ++ stripLogsWrapper (str "b'bad tex'"))) :=
  ⟨(online_response_contract ⟨200, [37, 80, 68, 70, 45, 49], [], JsonOutcome.notJson⟩).1.mpr
      ⟨Or.inl rfl, by decide⟩,
    rfl,
    (online_response_contract
      ⟨400, [], str "x", JsonOutcome.jsonLogsStr (str "b'bad tex'")⟩).2.1 _ rfl⟩

/-! ### Contact-and-skills-only serialization (C8) -/

/-- Every content line of the contact block carries a four-space indent. -/
theorem contactLinesAux_indented (i : Nat) (ls : List (List Char)) :
    ∀ l ∈ contactLinesAux i ls, ∃ t, l = str "    " ++ t := by
  induction ls generalizing i with
  | nil => simp [contactLinesAux]
  | cons x xs ih =>
    intro l hl
    simp only [contactLinesAux] at hl
    rcases List.mem_cons.mp hl with h | h
    · subst h
      by_cases hi : i = 0
      · rw [if_pos hi]
        refine ⟨str "\\textbf\x7b\\Huge \\scshape " ++ escape_latex_characters x
          ++ str "\x7d \\\\ \\vspace\x7b1pt\x7d", ?_⟩
        rw [show str "    \\textbf\x7b\\Huge \\scshape "
          = str "    " ++ str "\\textbf\x7b\\Huge \\scshape " from by decide]
        simp [List.append_assoc]
      · rw [if_neg hi]
        refine ⟨str "\\small " ++ escape_latex_characters x, ?_⟩
        rw [show str "    \\small " = str "    " ++ str "\\small " from by decide]
        simp [List.append_assoc]
    · exact ih (i + 1) l h

/-- Every content line of the skills block carries a four-space indent. -/
theorem skillsContentLines_indented (ls : List (List Char)) :
    ∀ l ∈ skillsContentLines ls, ∃ t, l = str "    " ++ t := by
  induction ls with
  | nil => simp [skillsContentLines]
  | cons x xs ih =>
    intro l hl
    cases xs with
    | nil =>
      simp only [skillsContentLines, List.mem_singleton] at hl
      subst hl
      refine ⟨str "  " ++ escape_latex_characters x, ?_⟩
      rw [show str "      " = str "    " ++ str "  " from by decide]
      simp [List.append_assoc]
    | cons y ys =>
      simp only [skillsContentLines] at hl
      rcases List.mem_cons.mp hl with h | h
      · subst h
        refine ⟨str "  " ++ escape_latex_characters x ++ str " \\\\", ?_⟩
        rw [show str "      " = str "    " ++ str "  " from by decide]
        simp [List.append_assoc]
      · exact ih l h

/-- A pattern that mismatches the four-space indent never matches an
indented line. -/
theorem startsWith_of_indented (f l : List Char)
    (hf : startsWith (f.take (str "    ").length) (str "    ") = false)
    (hl : ∃ t, l = str "    " ++ t) : startsWith f l = false := by
  obtain ⟨t, rfl⟩ := hl
  exact startsWith_concat_false f (str "    ") t hf

/-- No line of the contact block matches a pattern that matches neither
the `center` delimiters, the empty line, nor a four-space indent. -/
theorem contactBlock_pat_false (oc : Option ResumeSection) (f : List Char)
    (hf : startsWith (f.take (str "    ").length) (str "    ") = false)
    (hb : startsWith f (str "\\begin\x7bcenter\x7d") = false)
    (he : startsWith f (str "\\end\x7bcenter\x7d") = false)
    (hn : startsWith f [] = false) :
    ∀ l ∈ contactBlock oc, startsWith f l = false := by
  match oc with
  | none => intro l hl; simp [contactBlock] at hl
  | some c =>
    intro l hl
    by_cases hce : c.lines.isEmpty = true
    · simp [contactBlock, hce] at hl
    · simp only [contactBlock, if_neg hce] at hl
      rcases List.mem_append.mp hl with h | h
      · rcases List.mem_cons.mp h with h | h
        · subst h; exact hb
        · exact startsWith_of_indented f l hf (contactLinesAux_indented 0 c.lines l h)
      · rcases List.mem_cons.mp h with h | h
        · subst h; exact he
        · rw [List.mem_singleton.mp h]; exact hn

/-- No line of the skills block matches a pattern that matches neither its
fixed lines, the empty line, nor a four-space indent. -/
theorem skillsBlock_pat_false (os : Option ResumeSection) (f : List Char)
    (hf : startsWith (f.take (str "    ").length) (str "    ") = false)
    (h1 : startsWith f (str "\\section\x7bSkills\x7d") = false)
    (h2 : startsWith f (str "  \\begin\x7bitemize\x7d[leftmargin=0.15in, label=\x7b\x7d]") = false)
    (h3 : startsWith f (str "  \\end\x7bitemize\x7d") = false)
    (hn : startsWith f [] = false) :
    ∀ l ∈ skillsBlock os, startsWith f l = false := by
  have hsm : startsWith f (str "    \\small\x7b\\item\x7b") = false := by
    rw [show str "    \\small\x7b\\item\x7b" = str "    " ++ str "\\small\x7b\\item\x7b"
      from by decide]
    exact startsWith_concat_false f _ _ hf
  have hcl : startsWith f (str "    \x7d\x7d") = false := by
    rw [show str "    \x7d\x7d" = str "    " ++ str "\x7d\x7d" from by decide]
    exact startsWith_concat_false f _ _ hf
  match os with
  | none => intro l hl; simp [skillsBlock] at hl
  | some s =>
    intro l hl
    by_cases hse : s.lines.isEmpty = true
    · simp [skillsBlock, hse] at hl
    · simp only [skillsBlock, if_neg hse, List.cons_append, List.nil_append] at hl
      rcases List.mem_cons.mp hl with h | h
      · subst h; exact h1
      rcases List.mem_cons.mp h with h | h
      · subst h; exact h2
      rcases List.mem_cons.mp h with h | h
      · subst h; exact hsm
      rcases List.mem_append.mp h with h | h
      · exact startsWith_of_indented f l hf (skillsContentLines_indented s.lines l h)
      rcases List.mem_cons.mp h with h | h
      · subst h; exact hcl
      rcases List.mem_cons.mp h with h | h
      · subst h; exact h3
      · rw [List.mem_singleton.mp h]; exact hn

/-- The skills block contains exactly one line starting with `\section`:
its own header. -/
theorem skillsBlock_section_count (s : ResumeSection) (hs : s.lines.isEmpty = false) :
    (skillsBlock (some s)).countP (startsWith (str "\\section")) = 1 := by
  have hne : ¬ (s.lines.isEmpty = true) := by rw [hs]; exact Bool.false_ne_true
  have hcontent : (skillsContentLines s.lines).countP (startsWith (str "\\section")) = 0 := by
    rw [List.countP_eq_zero]
    intro a ha
    have := startsWith_of_indented (str "\\section") a (by decide)
      (skillsContentLines_indented s.lines a ha)
    simp [this]
  show (skillsBlock (some s)).countP (startsWith (str "\\section")) = 1
  simp only [skillsBlock, if_neg hne, List.cons_append, List.nil_append]
  simp only [List.countP_cons, List.countP_append, hcontent]
  decide

/-- C8: a resume with only contact and skills set (each nonempty)
serializes, in fallback mode, to the preamble followed by exactly two
content blocks — the contact block and the skills block — with exactly
one `\section` header line (Skills; the contact block is the equivalent
`center` block), and no Experience, Education, Projects or Certifications
header anywhere. -/
theorem fallback_contact_skills_two_blocks (c s : ResumeSection)
    (hc : c.lines.isEmpty = false) (hs : s.lines.isEmpty = false) :
    fallbackLatexLines ⟨some c, none, none, some s, none, none, none⟩
      = latexPreamble ++ contactBlock (some c) ++ skillsBlock (some s)
        ++ [str "\\end\x7bdocument\x7d"]
    ∧ contactBlock (some c) ≠ []
    ∧ skillsBlock (some s) ≠ []
    ∧ (fallbackLatexLines ⟨some c, none, none, some s, none, none, none⟩).countP
        (startsWith (str "\\section")) = 1
    ∧ (∀ l ∈ fallbackLatexLines ⟨some c, none, none, some s, none, none, none⟩,
        startsWith (str "\\section\x7bExperience\x7d") l = false
        ∧ startsWith (str "\\section\x7bEducation\x7d") l = false
        ∧ startsWith (str "\\section\x7bProjects\x7d") l = false
        ∧ startsWith (str "\\section\x7bCertifications") l = false) := by
  have hcne : ¬ (c.lines.isEmpty = true) := by rw [hc]; exact Bool.false_ne_true
  have hsne : ¬ (s.lines.isEmpty = true) := by rw [hs]; exact Bool.false_ne_true
  have hdecomp : fallbackLatexLines ⟨some c, none, none, some s, none, none, none⟩
      = latexPreamble ++ contactBlock (some c) ++ skillsBlock (some s)
        ++ [str "\\end\x7bdocument\x7d"] := by
    simp only [fallbackLatexLines, summaryBlock, subsectionBlock, List.append_nil]
  refine ⟨hdecomp, ?_, ?_, ?_, ?_⟩
  · simp only [contactBlock, if_neg hcne]
    intro h
    rcases List.append_eq_nil.mp h with ⟨h1, _⟩
    exact List.cons_ne_nil _ _ h1
  · simp only [skillsBlock, if_neg hsne]
    intro h
    rcases List.append_eq_nil.mp h with ⟨h1, _⟩
    rcases List.append_eq_nil.mp h1 with ⟨h2, _⟩
    exact List.cons_ne_nil _ _ h2
  · rw [hdecomp, List.countP_append, List.countP_append, List.countP_append]
    rw [skillsBlock_section_count s hs]
    have hpre : latexPreamble.countP (startsWith (str "\\section")) = 0 := by decide
    have hcc : (contactBlock (some c)).countP (startsWith (str "\\section")) = 0 := by
      rw [List.countP_eq_zero]
      intro a ha
      have := contactBlock_pat_false (some c) (str "\\section") (by decide) (by decide)
        (by decide) (by decide) a ha
      simp [this]
    rw [hpre, hcc]
    decide
  · intro l hl
    rw [hdecomp] at hl
    have main : ∀ f : List Char,
        (∀ x ∈ latexPreamble, startsWith f x = false) →
        startsWith (f.take (str "    ").length) (str "    ") = false →
        startsWith f (str "\\begin\x7bcenter\x7d") = false →
        startsWith f (str "\\end\x7bcenter\x7d") = false →
        startsWith f (str "\\section\x7bSkills\x7d") = false →
        startsWith f (str "  \\begin\x7bitemize\x7d[leftmargin=0.15in, label=\x7b\x7d]") = false →
        startsWith f (str "  \\end\x7bitemize\x7d") = false →
        startsWith f [] = false →
        startsWith f (str "\\end\x7bdocument\x7d") = false →
        startsWith f l = false := by
      intro f hpre hf hb he h1 h2 h3 hn hend
      rcases List.mem_append.mp hl with h | h
      · rcases List.mem_append.mp h with h | h
        · rcases List.mem_append.mp h with h | h
          · exact hpre l h
          · exact contactBlock_pat_false (some c) f hf hb he hn l h
        · exact skillsBlock_pat_false (some s) f hf h1 h2 h3 hn l h
      · rw [List.mem_singleton.mp h]; exact hend
    exact ⟨main _ (by decide) (by decide) (by decide) (by decide) (by decide) (by decide)
        (by decide) (by decide) (by decide),
      main _ (by decide) (by decide) (by decide) (by decide) (by decide) (by decide)
        (by decide) (by decide) (by decide),
      main _ (by decide) (by decide) (by decide) (by decide) (by decide) (by decide)
        (by decide) (by decide) (by decide),
      main _ (by decide) (by decide) (by decide) (by decide) (by decide) (by decide)
        (by decide) (by decide) (by decide)⟩

/-- Witness for `fallback_contact_skills_two_blocks` at a one-line
contact and one-line skills resume. -/
theorem fallback_contact_skills_two_blocks_witness :
    (⟨str "Contact Information", [str "Jane Doe"], []⟩ : ResumeSection).lines.isEmpty = false
    ∧ (⟨str "Skills", [str "Python"], []⟩ : ResumeSection).lines.isEmpty = false
    ∧ (fallbackLatexLines ⟨some ⟨str "Contact Information", [str "Jane Doe"], []⟩, none, none,
        some ⟨str "Skills", [str "Python"], []⟩, none, none, none⟩).countP
        (startsWith (str "\\section")) = 1 :=
  ⟨rfl, rfl,
    (fallback_contact_skills_two_blocks ⟨str "Contact Information", [str "Jane Doe"], []⟩
      ⟨str "Skills", [str "Python"], []⟩ rfl rfl).2.2.2.1⟩

/-! ### Preserve-mode frame property (C2) -/

/-- Properties of a successful regex match: the marker matches
case-insensitively at `i`, the body spans at least one character, and the
body end lies within the document. -/
theorem findMatch_spec (s title : List Char) (i j : Nat)
    (h : findMatch s title = some (i, j)) :
    ciStartsWith (sectionMarker title) (s.drop i) = true
    ∧ i + (sectionMarker title).length + 1 ≤ j
    ∧ j ≤ s.length := by
  unfold findMatch at h
  cases hfind : (List.range (s.length + 1)).find? (fun i0 =>
      ciStartsWith (sectionMarker title) (s.drop i0)
        && (findFrom s.length (nextMarkerAt s)
          (i0 + (sectionMarker title).length + 1)).isSome) with
  | none =>
    rw [hfind] at h
    exact absurd h (by simp)
  | some i0 =>
    rw [hfind] at h
    have h9 : (match findFrom s.length (nextMarkerAt s)
        (i0 + (sectionMarker title).length + 1) with
      | none => none
      | some j => some (i0, j)) = some (i, j) := h
    clear h
    cases hff : findFrom s.length (nextMarkerAt s) (i0 + (sectionMarker title).length + 1) with
    | none =>
      rw [hff] at h9
      exact absurd h9 (by simp)
    | some j0 =>
      rw [hff] at h9
      simp only [Option.some.injEq, Prod.mk.injEq] at h9
      obtain ⟨h1, h2⟩ := h9
      subst h1
      subst h2
      have hp := List.find?_some hfind
      simp only [Bool.and_eq_true] at hp
      unfold findFrom at hff
      have hq := List.find?_some hff
      simp only [Bool.and_eq_true, decide_eq_true_eq] at hq
      have hmem := List.mem_range.mp (List.mem_of_find?_eq_some hff)
      exact ⟨hp.1, hq.1, by omega⟩

/-- Decomposition of a string around the matched region `[i, j)`: prefix,
marker slice, old body, suffix. -/
theorem region_decomp (s : List Char) (i mlen j : Nat)
    (hij : i + mlen ≤ j) (_hj : j ≤ s.length) :
    s = s.take i ++ (s.drop i).take mlen ++ (s.take j).drop (i + mlen) ++ s.drop j := by
  have hmid : s.take j = s.take i ++ (s.drop i).take mlen ++ (s.take j).drop (i + mlen) := by
    rw [List.drop_take]
    conv_lhs => rw [show j = (i + mlen) + (j - (i + mlen)) from by omega]
    rw [List.take_add, List.take_add]
  calc s = s.take j ++ s.drop j := (List.take_append_drop j s).symm
    _ = _ := by conv_lhs => rw [hmid]

/-- C2: in preserve mode, when the Experience section is found in the
original document `d` at `[i1, j1)` and the Projects section in the
updated document at `[i2, j2)` (and the replacement templates expand
without error), the output replaces exactly those spans with the freshly
rendered expansions `e1`, `e2`: everything outside them — the prefix
before each marker and the suffix from each body end on — is byte
identical to its source, and each old body is gone entirely rather than
appended to.  The conjuncts decompose `d` and the intermediate document
into prefix, case-insensitively matched marker, old body and suffix. -/
theorem preserve_mode_frame (r : StructuredResume) (d : List Char)
    (se sp : ResumeSection)
    (hexp : r.experience = some se) (hse : se.subsections.isEmpty = false)
    (hproj : r.projects = some sp) (hsp : sp.subsections.isEmpty = false)
    (i1 j1 : Nat)
    (h1 : findMatch d (str "Experience") = some (i1, j1))
    (e1 : List Char)
    (hx1 : templateExpand ((d.drop i1).take (sectionMarker (str "Experience")).length)
        ((d.take j1).drop (i1 + (sectionMarker (str "Experience")).length))
        (str "\\1\n" ++ preserveSectionBody subheadingItemLines se.subsections)
      = Except.ok e1)
    (i2 j2 : Nat)
    (h2 : findMatch (d.take i1 ++ e1 ++ d.drop j1) (str "Projects") = some (i2, j2))
    (e2 : List Char)
    (hx2 : templateExpand
        (((d.take i1 ++ e1 ++ d.drop j1).drop i2).take (sectionMarker (str "Projects")).length)
        (((d.take i1 ++ e1 ++ d.drop j1).take j2).drop
          (i2 + (sectionMarker (str "Projects")).length))
        (str "\\1\n" ++ preserveSectionBody projectItemLines sp.subsections)
      = Except.ok e2) :
    preserve_original_latex_structure r d
      = Except.ok ((d.take i1 ++ e1 ++ d.drop j1).take i2 ++ e2
          ++ (d.take i1 ++ e1 ++ d.drop j1).drop j2)
    ∧ d = d.take i1
        ++ (d.drop i1).take (sectionMarker (str "Experience")).length
        ++ (d.take j1).drop (i1 + (sectionMarker (str "Experience")).length)
        ++ d.drop j1
    ∧ (d.take i1 ++ e1 ++ d.drop j1)
      = (d.take i1 ++ e1 ++ d.drop j1).take i2
        ++ ((d.take i1 ++ e1 ++ d.drop j1).drop i2).take (sectionMarker (str "Projects")).length
        ++ ((d.take i1 ++ e1 ++ d.drop j1).take j2).drop
          (i2 + (sectionMarker (str "Projects")).length)
        ++ (d.take i1 ++ e1 ++ d.drop j1).drop j2
    ∧ ciStartsWith (sectionMarker (str "Experience")) (d.drop i1) = true
    ∧ ciStartsWith (sectionMarker (str "Projects"))
        ((d.take i1 ++ e1 ++ d.drop j1).drop i2) = true := by
  obtain ⟨hci1, hlo1, hhi1⟩ := findMatch_spec d (str "Experience") i1 j1 h1
  obtain ⟨hci2, hlo2, hhi2⟩ :=
    findMatch_spec (d.take i1 ++ e1 ++ d.drop j1) (str "Projects") i2 j2 h2
  have hrep1 : replace_section_content d (str "Experience")
      (preserveSectionBody subheadingItemLines se.subsections)
      = Except.ok (d.take i1 ++ e1 ++ d.drop j1) := by
    simp only [replace_section_content, h1, hx1, Except.map]
  have hrep2 : replace_section_content (d.take i1 ++ e1 ++ d.drop j1) (str "Projects")
      (preserveSectionBody projectItemLines sp.subsections)
      = Except.ok ((d.take i1 ++ e1 ++ d.drop j1).take i2 ++ e2
          ++ (d.take i1 ++ e1 ++ d.drop j1).drop j2) := by
    simp only [replace_section_content, h2, hx2, Except.map]
  refine ⟨?_, ?_, ?_, hci1, hci2⟩
  · simp only [preserve_original_latex_structure, hexp, hproj, hse, hsp,
      Bool.false_eq_true, if_false, hrep1, hrep2, bind, Except.bind, pure, Except.pure]
  · exact region_decomp d i1 (sectionMarker (str "Experience")).length j1 (by omega) hhi1
  · exact region_decomp (d.take i1 ++ e1 ++ d.drop j1) i2
      (sectionMarker (str "Projects")).length j2 (by omega) hhi2

set_option maxRecDepth 100000 in
/-- Witness for `preserve_mode_frame` on the fixture document: both
sections are found, both templates expand, and the output splices the
expansions into the untouched frame. -/
theorem preserve_mode_frame_witness :
    preserve_original_latex_structure c2Resume c2Doc
      = Except.ok (c2Inter.take 111 ++ c2E2 ++ c2Inter.drop 133)
    ∧ ciStartsWith (sectionMarker (str "Experience")) (c2Doc.drop 1) = true :=
  ⟨(preserve_mode_frame c2Resume c2Doc c2ExpSection c2ProjSection rfl rfl rfl rfl
      1 24 rfl c2E1 rfl 111 133 rfl c2E2 rfl).1,
    (preserve_mode_frame c2Resume c2Doc c2ExpSection c2ProjSection rfl rfl rfl rfl
      1 24 rfl c2E1 rfl 111 133 rfl c2E2 rfl).2.2.2.1⟩

/-! ### Optimizer fallback policy (C1) -/

/-- Entry used by the C1 counterexample. -/
def cxItem1 : SubItem :=
  ⟨some (str "Dev"), some (str "AcmeCo"), some (str "NYC"), some (str "2020"), some [str "did x"]⟩

/-- Second entry used by the C1 counterexample. -/
def cxItem2 : SubItem :=
  ⟨some (str "Eng"), some (str "BetaCo"), some (str "LA"), some (str "2021"), some [str "did y"]⟩

/-- Resume with two Experience subsections, for the C1 counterexample. -/
def cxResume : StructuredResume :=
  ⟨none, none, some ⟨str "Experience", [], [cxItem1, cxItem2]⟩, none, none, none, none⟩

/-- Well-formed optimizer response whose Experience section carries only
one subsection, for the C1 counterexample. -/
def cxResp : RespData :=
  ⟨none, none, some ⟨some (str "Experience"), none, some [cxItem1]⟩, none, none, none, none⟩

/-- C1 counterexample: a well-formed response that drops one Experience
subsection is accepted as-is by both optimizers — the returned resume has
a different shape than the input and is not the pre-optimization input,
so no shape re-validation or fallback occurs. -/
theorem optimizer_accepts_shape_mismatch :
    specSameShape cxResume (optimize_content_lines cxResume (some cxResp)) = false
    ∧ optimize_content_lines cxResume (some cxResp) ≠ cxResume
    ∧ specSameShape cxResume (apply_ats_feedback cxResume (some cxResp)) = false
    ∧ apply_ats_feedback cxResume (some cxResp) ≠ cxResume := by
  refine ⟨by decide, by decide, by decide, by decide⟩

/-- C1 amended: both optimizers fall back to the pre-optimization input
exactly when response processing raises — unparseable response, or a
present section missing a required key — and otherwise return the resume
built from the response unconditionally, with no shape validation. -/
theorem optimizer_fallback_on_exception (r : StructuredResume) (d : RespData) :
    optimize_content_lines r none = r
    ∧ apply_ats_feedback r none = r
    ∧ (buildImproved d = Except.error () →
        optimize_content_lines r (some d) = r ∧ apply_ats_feedback r (some d) = r)
    ∧ (∀ r2, buildImproved d = Except.ok r2 →
        optimize_content_lines r (some d) = r2 ∧ apply_ats_feedback r (some d) = r2) := by
  refine ⟨rfl, rfl, ?_, ?_⟩
  · intro h
    refine ⟨?_, ?_⟩ <;>
      · show (match buildImproved d with
            | Except.ok r2 => r2
            | Except.error _ => r) = r
        rw [h]
  · intro r2 h
    refine ⟨?_, ?_⟩ <;>
      · show (match buildImproved d with
            | Except.ok r3 => r3
            | Except.error _ => r) = r2
        rw [h]

/-- Witness for `optimizer_fallback_on_exception`: a response whose
contact section lacks `lines` triggers the fallback; a complete response
is returned as built. -/
theorem optimizer_fallback_on_exception_witness :
    (buildImproved ⟨some ⟨some (str "Contact Information"), none, none⟩,
        none, none, none, none, none, none⟩ = Except.error ()
      ∧ optimize_content_lines ⟨none, none, none, none, none, none, none⟩
          (some ⟨some ⟨some (str "Contact Information"), none, none⟩,
            none, none, none, none, none, none⟩)
        = ⟨none, none, none, none, none, none, none⟩)
    ∧ (buildImproved ⟨none, none, none, none, none, none, none⟩
        = Except.ok ⟨none, none, none, none, none, none, none⟩
      ∧ apply_ats_feedback ⟨some ⟨str "t", [str "x"], []⟩, none, none, none, none, none, none⟩
          (some ⟨none, none, none, none, none, none, none⟩)
        = ⟨none, none, none, none, none, none, none⟩) :=
  ⟨⟨rfl,
      ((optimizer_fallback_on_exception ⟨none, none, none, none, none, none, none⟩
        ⟨some ⟨some (str "Contact Information"), none, none⟩,
          none, none, none, none, none, none⟩).2.2.1 rfl).1⟩,
    ⟨rfl,
      ((optimizer_fallback_on_exception
        ⟨some ⟨str "t", [str "x"], []⟩, none, none, none, none, none, none⟩
        ⟨none, none, none, none, none, none, none⟩).2.2.2
        ⟨none, none, none, none, none, none, none⟩ rfl).2⟩⟩

/-! ### Optimizer frame behaviour (C9) -/

/-- C9: neither optimizer mutates its input — the caller's object after
the call is the argument unchanged — and on success the returned resume
is built from the response alone (it does not depend on the input resume
at all), hence a freshly constructed instance. -/
theorem optimizer_input_unchanged (r r2 : StructuredResume) (resp : Option RespData) :
    (optimize_content_lines_call r resp).1 = r
    ∧ (apply_ats_feedback_call r resp).1 = r
    ∧ (∀ d res, resp = some d → buildImproved d = Except.ok res →
        optimize_content_lines r resp = res
        ∧ apply_ats_feedback r resp = res
        ∧ optimize_content_lines r resp = optimize_content_lines r2 resp
        ∧ apply_ats_feedback r resp = apply_ats_feedback r2 resp) := by
  refine ⟨rfl, rfl, ?_⟩
  intro d res hresp hok
  subst hresp
  have h1 : optimize_content_lines r (some d) = res := by
    show (match buildImproved d with
      | Except.ok x => x
      | Except.error _ => r) = res
    rw [hok]
  have h2 : apply_ats_feedback r (some d) = res := by
    show (match buildImproved d with
      | Except.ok x => x
      | Except.error _ => r) = res
    rw [hok]
  have h3 : optimize_content_lines r2 (some d) = res := by
    show (match buildImproved d with
      | Except.ok x => x
      | Except.error _ => r2) = res
    rw [hok]
  have h4 : apply_ats_feedback r2 (some d) = res := by
    show (match buildImproved d with
      | Except.ok x => x
      | Except.error _ => r2) = res
    rw [hok]
  exact ⟨h1, h2, h1.trans h3.symm, h2.trans h4.symm⟩

/-- Witness for `optimizer_input_unchanged` at a concrete input and a
complete response. -/
theorem optimizer_input_unchanged_witness :
    (optimize_content_lines_call
        ⟨some ⟨str "t", [str "x"], []⟩, none, none, none, none, none, none⟩
        (some ⟨none, none, none, none, none, none, none⟩)).1
      = ⟨some ⟨str "t", [str "x"], []⟩, none, none, none, none, none, none⟩
    ∧ optimize_content_lines
        ⟨some ⟨str "t", [str "x"], []⟩, none, none, none, none, none, none⟩
        (some ⟨none, none, none, none, none, none, none⟩)
      = ⟨none, none, none, none, none, none, none⟩ :=
  ⟨(optimizer_input_unchanged
      ⟨some ⟨str "t", [str "x"], []⟩, none, none, none, none, none, none⟩
      ⟨none, none, none, none, none, none, none⟩
      (some ⟨none, none, none, none, none, none, none⟩)).1,
    ((optimizer_input_unchanged
      ⟨some ⟨str "t", [str "x"], []⟩, none, none, none, none, none, none⟩
      ⟨none, none, none, none, none, none, none⟩
      (some ⟨none, none, none, none, none, none, none⟩)).2.2
      ⟨none, none, none, none, none, none, none⟩
      ⟨none, none, none, none, none, none, none⟩ rfl rfl).1⟩

end ResumeTailor
